import Mathlib

/-!
Verification of the DeerFlow structured logging subsystem
(`src/logging/handlers.py`, `src/logging/formatters.py`,
`src/logging/config.py`, `src/logging/interaction_logger.py`)
against its natural-language specification.

The Python code is shallowly embedded: the rotating file sink becomes a
state machine over an explicit directory model, the JSON encoders become
functions over a Python-value model, and the logger operations become
pure functions threading an identifier counter.  File-system and
`datetime` effects that the code delegates to the standard library are
made explicit parameters (the current calendar day and the write clock).
-/

/-! ## Rotating file sink (`handlers.py`, `DateRotatingFileHandler`)

A dated log file is identified by the day encoded in its name
(`{stem}_{YYYY-MM-DD}{suffix}`); days are modelled as natural numbers.
Each file carries its last-modified time (`st_mtime`) and its appended
lines.  The directory is the list of dated files matching the glob
pattern `{stem}_*.log`; files of other stems are out of scope. -/

structure LogFile where
  day : Nat
  mtime : Nat
  lines : List String
deriving DecidableEq, Repr

/-- Sink state: `max_files`, `current_date` and the directory contents
(the handler's open stream is determined by `currentDate`). `max_files`
is an `Int` because the Python code lets it be negative. -/
structure SinkState where
  maxFiles : Int
  currentDate : Nat
  files : List LogFile
deriving DecidableEq, Repr

/-- Ordering of files by last-modified time, as used by
`log_files.sort(key=lambda x: x.stat().st_mtime)` (a stable sort, which
`List.insertionSort` also is). -/
def mtimeLe (a b : LogFile) : Prop := a.mtime ≤ b.mtime

instance : DecidableRel mtimeLe := fun a b => Nat.decLe a.mtime b.mtime

instance : IsTotal LogFile mtimeLe := ⟨fun a b => Nat.le_total a.mtime b.mtime⟩

instance : IsTrans LogFile mtimeLe := ⟨fun _ _ _ h h' => Nat.le_trans h h'⟩

/-- Python slice `l[:stop]` for an `Int` stop, as in
`log_files[:-self.max_files]` (there `stop = -max_files`): a negative
stop counts from the end, clamping at zero; a non-negative stop takes
that many elements. Note `-0 = 0`, so `max_files = 0` yields `l[:0] = []`. -/
def pyTakeTo (l : List α) (stop : Int) : List α :=
  if stop < 0 then l.take (l.length - stop.natAbs) else l.take stop.toNat

/-- `DateRotatingFileHandler._cleanup_old_files`: if the number of
matching files exceeds `max_files`, sort them by mtime ascending and
unlink the slice `log_files[:-max_files]`; deletion is modelled as
succeeding (the claims under scrutiny assume all deletions succeed).
Files are identified by their (dated) name, i.e. by `day`. -/
def cleanupOldFiles (s : SinkState) : SinkState :=
  if (s.files.length : Int) ≤ s.maxFiles then s
  else
    let sorted := s.files.insertionSort mtimeLe
    let removedDays := (pyTakeTo sorted (-s.maxFiles)).map LogFile.day
    { s with files := s.files.filter (fun f => f.day ∉ removedDays) }

/-- The write performed by `logging.FileHandler.emit`: open the file
named for day `now` in append mode (creating it if absent, which stamps
`mtime := t`) and append the record line. -/
def writeRecord (now t : Nat) (r : String) (files : List LogFile) : List LogFile :=
  if files.any (fun f => f.day = now) then
    files.map (fun f =>
      if f.day = now then { f with mtime := t, lines := f.lines ++ [r] } else f)
  else files ++ [⟨now, t, [r]⟩]

/-- `DateRotatingFileHandler.emit`: if the wall-clock day `now` differs
from `current_date`, close the stream, set `current_date := now`, point
`baseFilename` at the new dated name, run retention cleanup, and only
then write the record (the new day's file is created by the write, not
by the rotation). `t` is the wall-clock write time stamped as mtime. -/
def emit (now t : Nat) (r : String) (s : SinkState) : SinkState :=
  let s' := if now ≠ s.currentDate then cleanupOldFiles { s with currentDate := now } else s
  { s' with files := writeRecord now t r s'.files }

/-- `DateRotatingFileHandler.__init__` on a fresh directory: record
`max_files` and today's date, open (create) today's dated file, then run
retention cleanup. -/
def initSink (maxFiles : Int) (day t : Nat) : SinkState :=
  cleanupOldFiles { maxFiles := maxFiles, currentDate := day, files := [⟨day, t, []⟩] }

/-- A sequence of appends: each event is (wall-clock day, write time, record). -/
def runAppends (s : SinkState) (evs : List (Nat × Nat × String)) : SinkState :=
  evs.foldl (fun st e => emit e.1 e.2.1 e.2.2 st) s

/-- Lines of the dated file for day `d` (empty when the file is absent;
a directory never holds two files of the same name, i.e. the same day). -/
def filesLines (files : List LogFile) (d : Nat) : List String :=
  (files.filterMap (fun f => if f.day = d then some f.lines else none)).flatten

/-! ## Python values and `json.dumps` (`formatters.py`)

Values attached to log records are Python objects; `json.dumps` either
serializes them or raises `TypeError` when it meets an object with no
JSON encoding (`PyVal.blob`).  The two encoders call `json.dumps`
without a `default=` fallback, so serialization is fallible: `Option`
models the raise.  Numeric values are modelled as integers; `datetime`
rendering is external and enters the model as pre-rendered strings. -/

inductive PyVal where
  | str (s : String)
  | int (n : Int)
  | bool (b : Bool)
  | pynone
  | blob (tag : String)
  | list (items : List PyVal)
  | dict (items : List (String × PyVal))
deriving Repr

/-- Decimal digit character of `n % 10`. -/
def digit10 (n : Nat) : Char := "0123456789".data.getD (n % 10) '0'

/-- Decimal digits of a natural number, structurally recursive on fuel
(`n + 1` is always enough fuel since `n / 10 < n`). -/
def natDigitsAux : Nat → Nat → List Char
  | 0, _ => []
  | fuel + 1, n => if n < 10 then [digit10 n] else natDigitsAux fuel (n / 10) ++ [digit10 n]

def natDigits (n : Nat) : List Char := natDigitsAux (n + 1) n

/-- Python `str(int)`: optional minus sign followed by decimal digits. -/
def intChars (n : Int) : List Char :=
  if n < 0 then '-' :: natDigits n.natAbs else natDigits n.natAbs

/-- JSON string escaping as performed by `json.dumps` for the characters
exercised by this code base (quote, backslash and the common control
characters; `ensure_ascii=False` leaves other characters unescaped). -/
def escapeChar (c : Char) : List Char :=
  if c = '"' then ['\\', '"']
  else if c = '\\' then ['\\', '\\']
  else if c = '\n' then ['\\', 'n']
  else if c = '\r' then ['\\', 'r']
  else if c = '\t' then ['\\', 't']
  else [c]

def jsonStringChars (s : String) : List Char :=
  '"' :: (s.data.map escapeChar).flatten ++ ['"']

def joinSep (sep : List Char) : List (List Char) → List Char
  | [] => []
  | [p] => p
  | p :: ps => p ++ sep ++ joinSep sep ps

def nspaces (n : Nat) : List Char := List.replicate n ' '

mutual
/-- `json.dumps(v, ensure_ascii=False)` with default separators
`(', ', ': ')`: one line, `none` when the value is unserializable. -/
def pyDumpMin : PyVal → Option (List Char)
  | PyVal.str s => some (jsonStringChars s)
  | PyVal.int n => some (intChars n)
  | PyVal.bool b => some (if b then "true".data else "false".data)
  | PyVal.pynone => some "null".data
  | PyVal.blob _ => none
  | PyVal.list items =>
      (pyDumpMinList items).map (fun parts => '[' :: joinSep ", ".data parts ++ [']'])
  | PyVal.dict items =>
      (pyDumpMinDict items).map (fun parts => '\x7b' :: joinSep ", ".data parts ++ ['\x7d'])

def pyDumpMinList : List PyVal → Option (List (List Char))
  | [] => some []
  | v :: vs => do
      let c ← pyDumpMin v
      let cs ← pyDumpMinList vs
      pure (c :: cs)

def pyDumpMinDict : List (String × PyVal) → Option (List (List Char))
  | [] => some []
  | (k, v) :: kvs => do
      let c ← pyDumpMin v
      let cs ← pyDumpMinDict kvs
      pure ((jsonStringChars k ++ ':' :: ' ' :: c) :: cs)
end

mutual
/-- `json.dumps(v, ensure_ascii=False, indent=ind)`: multi-line output
with item separator `','` + newline and key separator `': '`; empty
containers print inline, as CPython does. -/
def pyDumpInd (ind depth : Nat) : PyVal → Option (List Char)
  | PyVal.str s => some (jsonStringChars s)
  | PyVal.int n => some (intChars n)
  | PyVal.bool b => some (if b then "true".data else "false".data)
  | PyVal.pynone => some "null".data
  | PyVal.blob _ => none
  | PyVal.list [] => some "[]".data
  | PyVal.list (v :: vs) =>
      (pyDumpIndList ind (depth + 1) (v :: vs)).map (fun parts =>
        '[' :: '\n' :: joinSep (',' :: '\n' :: [])
            (parts.map (fun p => nspaces (ind * (depth + 1)) ++ p))
          ++ '\n' :: nspaces (ind * depth) ++ [']'])
  | PyVal.dict [] => some ['\x7b', '\x7d']
  | PyVal.dict (kv :: kvs) =>
      (pyDumpIndDict ind (depth + 1) (kv :: kvs)).map (fun parts =>
        '\x7b' :: '\n' :: joinSep (',' :: '\n' :: [])
            (parts.map (fun p => nspaces (ind * (depth + 1)) ++ p))
          ++ '\n' :: nspaces (ind * depth) ++ ['\x7d'])

def pyDumpIndList (ind depth : Nat) : List PyVal → Option (List (List Char))
  | [] => some []
  | v :: vs => do
      let c ← pyDumpInd ind depth v
      let cs ← pyDumpIndList ind depth vs
      pure (c :: cs)

def pyDumpIndDict (ind depth : Nat) : List (String × PyVal) → Option (List (List Char))
  | [] => some []
  | (k, v) :: kvs => do
      let c ← pyDumpInd ind depth v
      let cs ← pyDumpIndDict ind depth kvs
      pure ((jsonStringChars k ++ ':' :: ' ' :: c) :: cs)
end

/-! ## Log records and the two encoders (`formatters.py`)

A `logging.LogRecord` carries fixed attributes plus any custom
attributes assigned by the event logger (`attrs`, modelling the custom
part of `record.__dict__`).  The timestamps the formatters derive from
`record.created` via `datetime` enter the model pre-rendered
(`createdIso` for `isoformat()`, `createdHMS` for
`strftime("%Y-%m-%d %H:%M:%S")`), and `msg` stands for
`record.getMessage()` (all records here are created with empty `args`). -/

structure LogRecord where
  name : String
  levelname : String
  msg : String
  module : String
  funcName : String
  lineno : Nat
  createdIso : String
  createdHMS : String
  excText : Option String
  attrs : List (String × PyVal)

/-- Python dict assignment `d[k] = v`: overwrite in place or append. -/
def pySet (l : List (String × PyVal)) (k : String) (v : PyVal) : List (String × PyVal) :=
  if l.any (fun p => p.1 = k) then l.map (fun p => if p.1 = k then (k, v) else p)
  else l ++ [(k, v)]

/-- `getattr(record, k, default-absent)`: lookup among custom attributes. -/
def pyGet (l : List (String × PyVal)) (k : String) : Option PyVal :=
  (l.find? (fun p => p.1 = k)).map Prod.snd

/-- Python `d.update(other)`. -/
def pyUpdate (l other : List (String × PyVal)) : List (String × PyVal) :=
  other.foldl (fun acc p => pySet acc p.1 p.2) l

/-- The key set `StructuredFormatter.format` excludes when merging
`record.__dict__` into the output. -/
def excludedKeys : List String :=
  ["name", "levelname", "levelno", "pathname", "filename",
   "module", "exc_info", "exc_text", "stack_info", "lineno",
   "funcName", "created", "msecs", "relativeCreated", "thread",
   "threadName", "processName", "process", "getMessage", "msg", "args"]

/-- The dict `StructuredFormatter.format` builds: fixed fields, then the
exception text when present, then every non-excluded custom attribute. -/
def structuredDict (r : LogRecord) : List (String × PyVal) :=
  let base := [("timestamp", PyVal.str r.createdIso), ("level", PyVal.str r.levelname),
               ("logger", PyVal.str r.name), ("message", PyVal.str r.msg),
               ("module", PyVal.str r.module), ("function", PyVal.str r.funcName),
               ("line", PyVal.int r.lineno)]
  let withExc := match r.excText with
    | some e => pySet base "exception" (PyVal.str e)
    | Option.none => base
  (r.attrs.filter (fun p => p.1 ∉ excludedKeys)).foldl
    (fun acc p => pySet acc p.1 p.2) withExc

/-- `StructuredFormatter.format`: `json.dumps(log_data, ensure_ascii=False)`
(no `indent`, no `default=`); `none` models the `TypeError` raised on an
unserializable attribute value. -/
def structuredFormat (r : LogRecord) : Option String :=
  (pyDumpMin (PyVal.dict (structuredDict r))).map String.mk

/-- The dict `InteractionFormatter.format` builds: five base fields with
`getattr` defaults, then `log_data.update(record.interaction_data)`
(which raises when that attribute is not a mapping — the outer `none`),
then the conditional `duration_ms`, `agent` and `tool` fields. -/
def interactionDict (r : LogRecord) : Option (List (String × PyVal)) :=
  let base := [("timestamp", PyVal.str r.createdHMS),
               ("session_id", (pyGet r.attrs "session_id").getD (PyVal.str "unknown")),
               ("interaction_type", (pyGet r.attrs "interaction_type").getD (PyVal.str "general")),
               ("user_id", (pyGet r.attrs "user_id").getD (PyVal.str "anonymous")),
               ("message", PyVal.str r.msg)]
  let d1 := match pyGet r.attrs "interaction_data" with
    | some (PyVal.dict entries) => some (pyUpdate base entries)
    | some _ => Option.none
    | Option.none => some base
  d1.map (fun d =>
    let d2 := match pyGet r.attrs "duration" with
      | some v => pySet d "duration_ms" v
      | Option.none => d
    let d3 := match pyGet r.attrs "agent_name" with
      | some v => pySet d2 "agent" v
      | Option.none => d2
    match pyGet r.attrs "tool_name" with
      | some v => pySet d3 "tool" v
      | Option.none => d3)

/-- `InteractionFormatter.format`:
`json.dumps(log_data, ensure_ascii=False, indent=2)`. -/
def interactionFormat (r : LogRecord) : Option String :=
  (interactionDict r).bind (fun d => (pyDumpInd 2 0 (PyVal.dict d)).map String.mk)

/-! ## Event logger operations (`interaction_logger.py`)

`uuid.uuid4()` is modelled as a draw from a process-wide counter
(`uuidStr n` is the `n`-th generated identifier, distinct for distinct
draws), and `datetime.now()` timestamps enter pre-rendered.  Each
operation returns exactly what the Python function returns — the four
record-constructing operations return the event id (`String`), while
`log_performance_metric` and `log_security_event` are annotated
`-> None` (`Option.none`) — together with the record content the
operation hands to its channel logger. -/

structure InteractionLogger where
  sessionId : String
deriving DecidableEq, Repr

def uuidStr (n : Nat) : String := "uuid-" ++ String.mk (natDigits n)

def optStr : Option String → PyVal
  | some s => PyVal.str s
  | Option.none => PyVal.pynone

def optInt : Option Int → PyVal
  | some n => PyVal.int n
  | Option.none => PyVal.pynone

def optDict : Option (List (String × PyVal)) → PyVal
  | some d => PyVal.dict d
  | Option.none => PyVal.pynone

/-- `InteractionLogger.log_interaction`: builds the `InteractionEvent`
dataclass (`asdict` order), creates a `LogRecord` for
`deer_flow.interactions` with the custom attributes the source assigns,
and returns the generated event id. -/
def logInteraction (lg : InteractionLogger) (n : Nat) (tsIso tsHMS : String)
    (eventType : String) (userInput agentResponse agentName : Option String)
    (durationMs : Option Int) (metadata : Option (List (String × PyVal)))
    (error : Option String) : String × LogRecord :=
  let eventId := uuidStr n
  let eventDict : List (String × PyVal) :=
    [("event_id", PyVal.str eventId), ("session_id", PyVal.str lg.sessionId),
     ("timestamp", PyVal.str tsIso), ("event_type", PyVal.str eventType),
     ("user_input", optStr userInput), ("agent_response", optStr agentResponse),
     ("agent_name", optStr agentName), ("tool_name", PyVal.pynone),
     ("tool_input", PyVal.pynone), ("tool_output", PyVal.pynone),
     ("duration_ms", optInt durationMs), ("metadata", PyVal.dict (metadata.getD [])),
     ("error", optStr error)]
  (eventId,
   { name := "deer_flow.interactions", levelname := "INFO", msg := "",
     module := "", funcName := "", lineno := 0,
     createdIso := tsIso, createdHMS := tsHMS, excText := Option.none,
     attrs := [("session_id", PyVal.str lg.sessionId),
               ("interaction_type", PyVal.str eventType),
               ("interaction_data", PyVal.dict eventDict),
               ("duration", optInt durationMs),
               ("agent_name", optStr agentName)] })

/-- Python truthiness of an optional integer: `None` and `0` are falsy. -/
def pyTruthyOptInt : Option Int → Bool
  | Option.none => false
  | some n => !decide (n = 0)

/-- The `AgentActivity` dataclass of `interaction_logger.py`. -/
structure AgentActivity where
  event_id : String
  session_id : String
  timestamp : String
  agent_name : String
  activity_type : String
  llm_model : Option String
  prompt_tokens : Option Int
  completion_tokens : Option Int
  total_tokens : Option Int
  duration_ms : Option Int
  input_data : Option String
  output_data : Option String
  metadata : List (String × PyVal)

/-- `InteractionLogger.log_agent_activity`: the `total_tokens` field is
`(prompt_tokens or 0) + (completion_tokens or 0) if prompt_tokens and
completion_tokens else None` — Python truthiness, so a count of `0`
behaves like an absent count. -/
def logAgentActivity (lg : InteractionLogger) (n : Nat) (ts : String)
    (agentName activityType : String) (llmModel : Option String)
    (promptTokens completionTokens : Option Int) (durationMs : Option Int)
    (inputData outputData : Option String)
    (metadata : Option (List (String × PyVal))) : String × AgentActivity :=
  let eventId := uuidStr n
  (eventId,
   { event_id := eventId, session_id := lg.sessionId, timestamp := ts,
     agent_name := agentName, activity_type := activityType, llm_model := llmModel,
     prompt_tokens := promptTokens, completion_tokens := completionTokens,
     total_tokens :=
       if pyTruthyOptInt promptTokens && pyTruthyOptInt completionTokens then
         some (promptTokens.getD 0 + completionTokens.getD 0)
       else Option.none,
     duration_ms := durationMs, input_data := inputData, output_data := outputData,
     metadata := metadata.getD [] })

/-- `InteractionLogger.log_workflow_event`: returns the event id and the
`extra` attributes handed to the workflow logger (session id plus the
`asdict` of the `WorkflowEvent` dataclass). -/
def logWorkflowEvent (lg : InteractionLogger) (n : Nat) (ts : String)
    (workflowType nodeName status : String)
    (inputData outputData : Option (List (String × PyVal)))
    (durationMs : Option Int) (error : Option String) :
    String × List (String × PyVal) :=
  let eventId := uuidStr n
  (eventId,
   [("session_id", PyVal.str lg.sessionId),
    ("workflow_event", PyVal.dict
      [("event_id", PyVal.str eventId), ("session_id", PyVal.str lg.sessionId),
       ("timestamp", PyVal.str ts), ("workflow_type", PyVal.str workflowType),
       ("node_name", PyVal.str nodeName), ("status", PyVal.str status),
       ("input_data", optDict inputData), ("output_data", optDict outputData),
       ("duration_ms", optInt durationMs), ("error", optStr error)])])

/-- `InteractionLogger.log_tool_usage`: returns the event id and the
custom attributes set on the tool record (including the `asdict` of the
`ToolUsage` dataclass). -/
def logToolUsage (lg : InteractionLogger) (n : Nat) (ts : String)
    (toolName : String) (inputParameters : Option (List (String × PyVal)))
    (outputResult agentName : Option String) (durationMs : Option Int)
    (success : Bool) (error : Option String) :
    String × List (String × PyVal) :=
  let eventId := uuidStr n
  (eventId,
   [("session_id", PyVal.str lg.sessionId),
    ("tool_name", PyVal.str toolName), ("agent_name", optStr agentName),
    ("tool_data", PyVal.dict
      [("event_id", PyVal.str eventId), ("session_id", PyVal.str lg.sessionId),
       ("timestamp", PyVal.str ts), ("tool_name", PyVal.str toolName),
       ("agent_name", optStr agentName), ("input_parameters", optDict inputParameters),
       ("output_result", optStr outputResult), ("duration_ms", optInt durationMs),
       ("success", PyVal.bool success), ("error", optStr error)])])

/-- `InteractionLogger.log_performance_metric`: annotated `-> None`,
no event id is generated; the `extra` dict holds session id, metric
name, value, unit and metadata only. -/
def logPerformanceMetric (lg : InteractionLogger) (metricName : String)
    (value : PyVal) (unit : String) (metadata : Option (List (String × PyVal))) :
    Option String × List (String × PyVal) :=
  (Option.none,
   [("session_id", PyVal.str lg.sessionId), ("metric_name", PyVal.str metricName),
    ("value", value), ("unit", PyVal.str unit),
    ("metadata", PyVal.dict (metadata.getD []))])

/-- `InteractionLogger.log_security_event`: annotated `-> None`, no
event id; severity only selects the log level, and the description only
feeds the message text. -/
def logSecurityEvent (lg : InteractionLogger) (eventType descr severity : String)
    (userId ipAddress : Option String) (metadata : Option (List (String × PyVal))) :
    Option String × List (String × PyVal) :=
  (Option.none,
   [("session_id", PyVal.str lg.sessionId), ("event_type", PyVal.str eventType),
    ("user_id", optStr userId), ("ip_address", optStr ipAddress),
    ("metadata", PyVal.dict (metadata.getD []))])

/-- Python truthiness of an optional string: `None` and `""` are falsy. -/
def pyTruthyOptStr : Option String → Bool
  | Option.none => false
  | some s => !decide (s = "")

/-- `InteractionLogger.__init__`: `self.session_id = session_id or
str(uuid.uuid4())`. -/
def newInteractionLogger (n : Nat) (sessionId : Option String) : InteractionLogger :=
  { sessionId := if pyTruthyOptStr sessionId then sessionId.getD "" else uuidStr n }

/-- `get_interaction_logger`: replaces the global instance when it is
absent, or when `session_id` is truthy and differs from the bound one.
The boolean reports whether a new instance was created. -/
def getInteractionLogger (g : Option InteractionLogger) (n : Nat)
    (sessionId : Option String) : InteractionLogger × Bool :=
  match g with
  | Option.none => (newInteractionLogger n sessionId, true)
  | some lg =>
      if pyTruthyOptStr sessionId && !decide (lg.sessionId = sessionId.getD "") then
        (newInteractionLogger n sessionId, true)
      else (lg, false)

/-! ## Channel registry and setup (`config.py`)

`setup_logging` always installs the system `DateRotatingFileHandler` on
the root logger (whose level is set to the configured system level), then
configures the six named channels.  An enabled channel logger receives
its own file handler (handler level left at 0) and `propagate = False`,
and its logger level is set — per configuration for the interaction,
agent, workflow and tool channels, hard-coded INFO for the performance
and security channels.  A disabled channel is skipped entirely, so its
logger keeps the default `propagate = True`, no handler, and level
NOTSET, which resolves to the root's level.

`routedFileWrites` models one record dispatched to a channel logger.
The interaction, agent and tool operations call `Logger.handle(record)`
directly, which skips the logger-level check; the workflow, performance
and security operations call `Logger.log`/`Logger.info`, which first
check `isEnabledFor(level)` against the logger's effective level and
emit nothing when the record level is below it.  A record that passes
reaches `callHandlers`: the logger's own file handlers, then — while
propagation is on — the ancestors' handlers, where the root's system
handler fires when the record level reaches the configured system level
(the root console `StreamHandler` is not a file and is omitted). -/

inductive LogChannel where
  | interactions | agents | workflows | tools | performance | security
deriving DecidableEq, Repr

structure SetupConfig where
  enableInteraction : Bool := true
  enableAgent : Bool := true
  enableWorkflow : Bool := true
  enableTool : Bool := true
  enablePerformance : Bool := true
  enableSecurity : Bool := true
  interactionLevel : Nat := 20
  agentLevel : Nat := 20
  workflowLevel : Nat := 20
  toolLevel : Nat := 20
  systemLevel : Nat := 20
deriving DecidableEq, Repr

def channelEnabled (cfg : SetupConfig) : LogChannel → Bool
  | LogChannel.interactions => cfg.enableInteraction
  | LogChannel.agents => cfg.enableAgent
  | LogChannel.workflows => cfg.enableWorkflow
  | LogChannel.tools => cfg.enableTool
  | LogChannel.performance => cfg.enablePerformance
  | LogChannel.security => cfg.enableSecurity

/-- The level `_setup_*_logger` sets on an enabled channel logger:
configurable for interactions, agents, workflows and tools;
`logging.INFO` (20) hard-coded for performance and security. -/
def channelLevel (cfg : SetupConfig) : LogChannel → Nat
  | LogChannel.interactions => cfg.interactionLevel
  | LogChannel.agents => cfg.agentLevel
  | LogChannel.workflows => cfg.workflowLevel
  | LogChannel.tools => cfg.toolLevel
  | LogChannel.performance => 20
  | LogChannel.security => 20

/-- Whether the channel's logging operation dispatches through
`Logger.log`/`Logger.info` (subject to the `isEnabledFor` level check)
rather than `Logger.handle` (which bypasses it): `log_workflow_event`,
`log_performance_metric` and `log_security_event` do, while
`log_interaction`, `log_agent_activity` and `log_tool_usage` build a
`LogRecord` and call `handle` directly. -/
def usesLoggerLog : LogChannel → Bool
  | LogChannel.workflows => true
  | LogChannel.performance => true
  | LogChannel.security => true
  | _ => false

/-- The effective level of a channel logger after setup: its own level
when enabled; NOTSET when disabled, resolving up the hierarchy to the
root logger's level (the configured system level). -/
def effectiveLevel (cfg : SetupConfig) (ch : LogChannel) : Nat :=
  if channelEnabled cfg ch then channelLevel cfg ch else cfg.systemLevel

inductive FileTarget where
  | channelDir (ch : LogChannel)
  | systemDir
deriving DecidableEq, Repr

def routedFileWrites (cfg : SetupConfig) (ch : LogChannel) (lvl : Nat) : List FileTarget :=
  if usesLoggerLog ch ∧ lvl < effectiveLevel cfg ch then []
  else
    (if channelEnabled cfg ch then [FileTarget.channelDir ch] else [])
      ++ (if channelEnabled cfg ch then []
          else if cfg.systemLevel ≤ lvl then [FileTarget.systemDir] else [])

/-! ### Channel initialization sequence

`setup_logging` calls the six `_setup_*_logger` functions in a fixed
order with no exception handling; creating a channel's handler (its
directory and file) can raise, and a disabled channel is skipped before
any handler is created.  `runChannelSetups` returns the channels whose
handlers were installed and the step whose exception aborted setup, if
any. -/

inductive SetupStep where
  | interaction | agent | workflow | tool | performance | security
deriving DecidableEq, Repr

def setupOrder : List SetupStep :=
  [SetupStep.interaction, SetupStep.agent, SetupStep.workflow,
   SetupStep.tool, SetupStep.performance, SetupStep.security]

def runSetupsAux (enabled fails : SetupStep → Bool) :
    List SetupStep → List SetupStep → List SetupStep × Option SetupStep
  | [], acc => (acc.reverse, Option.none)
  | c :: rest, acc =>
      if enabled c then
        if fails c then (acc.reverse, some c)
        else runSetupsAux enabled fails rest (c :: acc)
      else runSetupsAux enabled fails rest acc

def runChannelSetups (enabled fails : SetupStep → Bool) :
    List SetupStep × Option SetupStep :=
  runSetupsAux enabled fails setupOrder []

/-! ## Properties of the rotating sink -/

theorem filesLines_append (l₁ l₂ : List LogFile) (d : Nat) :
    filesLines (l₁ ++ l₂) d = filesLines l₁ d ++ filesLines l₂ d := by
  simp [filesLines, List.filterMap_append]

theorem filesLines_eq_nil (files : List LogFile) (d : Nat)
    (h : ∀ g ∈ files, g.day ≠ d) : filesLines files d = [] := by
  induction files with
  | nil => rfl
  | cons f fs ih =>
    have hf : f.day ≠ d := h f (by simp)
    have ih' := ih (fun g hg => h g (by simp [hg]))
    simp [filesLines, List.filterMap_cons, hf] at ih' ⊢
    exact ih'

theorem day_update (now t : Nat) (r : String) (f : LogFile) :
    (if f.day = now then { f with mtime := t, lines := f.lines ++ [r] } else f).day = f.day := by
  by_cases h : f.day = now <;> simp [h]

theorem filesLines_cons (f : LogFile) (fs : List LogFile) (d : Nat) :
    filesLines (f :: fs) d = (if f.day = d then f.lines else []) ++ filesLines fs d := by
  by_cases h : f.day = d <;> simp [filesLines, List.filterMap_cons, h]

theorem filesLines_update_self (now t : Nat) (r : String) :
    ∀ (files : List LogFile), (files.map LogFile.day).Nodup →
    filesLines (files.map (fun f =>
        if f.day = now then { f with mtime := t, lines := f.lines ++ [r] } else f)) now
      = filesLines files now
        ++ (if files.any (fun f => f.day = now) then [r] else []) := by
  intro files
  induction files with
  | nil => intro _; rfl
  | cons f fs ih =>
    intro hnd
    have hnd' : (fs.map LogFile.day).Nodup := (List.nodup_cons.mp hnd).2
    have hmem : f.day ∉ fs.map LogFile.day := (List.nodup_cons.mp hnd).1
    by_cases hf : f.day = now
    · have hnone : ∀ g ∈ fs, g.day ≠ now := by
        intro g hg hgday
        exact hmem (hf ▸ hgday ▸ List.mem_map_of_mem LogFile.day hg)
      have h1 : filesLines fs now = [] := filesLines_eq_nil fs now hnone
      have h2 : filesLines (fs.map (fun f =>
          if f.day = now then { f with mtime := t, lines := f.lines ++ [r] } else f)) now = [] := by
        refine filesLines_eq_nil _ now ?_
        intro g hg
        obtain ⟨g₀, hg₀, rfl⟩ := List.mem_map.mp hg
        rw [day_update]
        exact hnone g₀ hg₀
      rw [List.map_cons, filesLines_cons, filesLines_cons, h1, h2]
      simp [hf]
    · have ihr := ih hnd'
      rw [List.map_cons, filesLines_cons, filesLines_cons, ihr]
      simp [hf]
theorem filesLines_update_other (now t : Nat) (r : String) (d : Nat) (hd : d ≠ now) :
    ∀ (files : List LogFile),
    filesLines (files.map (fun f =>
        if f.day = now then { f with mtime := t, lines := f.lines ++ [r] } else f)) d
      = filesLines files d := by
  intro files
  induction files with
  | nil => rfl
  | cons f fs ih =>
    rw [List.map_cons, filesLines_cons, filesLines_cons, ih]
    by_cases hf : f.day = now
    · simp [hf, hd.symm, Ne.symm hd]
    · simp [hf]

theorem filesLines_writeRecord_self (now t : Nat) (r : String) (files : List LogFile)
    (hnd : (files.map LogFile.day).Nodup) :
    filesLines (writeRecord now t r files) now = filesLines files now ++ [r] := by
  unfold writeRecord
  by_cases hany : files.any (fun f => f.day = now)
  · rw [if_pos hany, filesLines_update_self now t r files hnd, hany]
    simp
  · rw [if_neg hany, filesLines_append]
    simp [filesLines_cons, filesLines]

theorem filesLines_writeRecord_other (now t : Nat) (r : String) (d : Nat) (hd : d ≠ now)
    (files : List LogFile) :
    filesLines (writeRecord now t r files) d = filesLines files d := by
  unfold writeRecord
  by_cases hany : files.any (fun f => f.day = now)
  · rw [if_pos hany, filesLines_update_other now t r d hd]
  · rw [if_neg hany, filesLines_append]
    simp [filesLines_cons, filesLines, Ne.symm hd]

/-- C1: on every append with wall-clock day `now`, the sink ends up with
`current_date = now` (rotating exactly when the day changed, staying put
otherwise), the record is appended exactly once to the dated file for
`now`, and every other day's file — in particular the old day's file at
a day boundary — is left untouched, so no record is duplicated or lost.
Hypotheses: dated file names are distinct, and the directory is within
the retention cap so that rotation's cleanup pass deletes nothing (as in
the spec's boundary scenario; retention deletion is claims C2/C3). -/
theorem rotating_sink_day_boundary (s : SinkState) (now t : Nat) (r : String)
    (hnd : (s.files.map LogFile.day).Nodup)
    (hcap : (s.files.length : Int) ≤ s.maxFiles) :
    (emit now t r s).currentDate = now ∧
    filesLines (emit now t r s).files now = filesLines s.files now ++ [r] ∧
    (∀ d, d ≠ now → filesLines (emit now t r s).files d = filesLines s.files d) := by
  have hclean : cleanupOldFiles { s with currentDate := now } = { s with currentDate := now } := by
    unfold cleanupOldFiles
    rw [if_pos]
    exact hcap
  by_cases h : now = s.currentDate
  · have he : emit now t r s = { s with files := writeRecord now t r s.files } := by
      simp [emit, h]
    rw [he]
    exact ⟨h.symm, filesLines_writeRecord_self now t r s.files hnd,
      fun d hd => filesLines_writeRecord_other now t r d hd s.files⟩
  · have he : emit now t r s =
        { s with currentDate := now, files := writeRecord now t r s.files } := by
      simp [emit, h, hclean]
    rw [he]
    exact ⟨rfl, filesLines_writeRecord_self now t r s.files hnd,
      fun d hd => filesLines_writeRecord_other now t r d hd s.files⟩
theorem sorted_days_nodup (l : List LogFile) (hnd : (l.map LogFile.day).Nodup) :
    ((l.insertionSort mtimeLe).map LogFile.day).Nodup := by
  have hperm : List.Perm (l.insertionSort mtimeLe) l := l.perm_insertionSort mtimeLe
  exact ((hperm.map LogFile.day).nodup_iff).mpr hnd

theorem cleanup_filter_perm (l : List LogFile) (hnd : (l.map LogFile.day).Nodup) (k : Nat) :
    List.Perm
      (l.filter (fun f => f.day ∉ ((l.insertionSort mtimeLe).take k).map LogFile.day))
      ((l.insertionSort mtimeLe).drop k) := by
  have hperm : List.Perm (l.insertionSort mtimeLe) l := l.perm_insertionSort mtimeLe
  have hsplit : (l.insertionSort mtimeLe).take k ++ (l.insertionSort mtimeLe).drop k
      = l.insertionSort mtimeLe := List.take_append_drop k _
  have hnds : ((l.insertionSort mtimeLe).map LogFile.day).Nodup := sorted_days_nodup l hnd
  have hdisj : (((l.insertionSort mtimeLe).take k).map LogFile.day).Disjoint
      (((l.insertionSort mtimeLe).drop k).map LogFile.day) := by
    rw [← hsplit, List.map_append] at hnds
    exact (List.nodup_append.mp hnds).2.2
  have hfilter : List.Perm
      (l.filter (fun f => f.day ∉ ((l.insertionSort mtimeLe).take k).map LogFile.day))
      ((l.insertionSort mtimeLe).filter
        (fun f => f.day ∉ ((l.insertionSort mtimeLe).take k).map LogFile.day)) :=
    (hperm.filter _).symm
  refine hfilter.trans ?_
  have h1 : ((l.insertionSort mtimeLe).take k).filter
      (fun f => f.day ∉ ((l.insertionSort mtimeLe).take k).map LogFile.day) = [] := by
    rw [List.filter_eq_nil_iff]
    intro f hf
    simp only [decide_not, Bool.not_eq_true', decide_eq_false_iff_not, not_not]
    exact List.mem_map_of_mem LogFile.day hf
  have h2 : ((l.insertionSort mtimeLe).drop k).filter
      (fun f => f.day ∉ ((l.insertionSort mtimeLe).take k).map LogFile.day)
      = (l.insertionSort mtimeLe).drop k := by
    rw [List.filter_eq_self]
    intro f hf
    simp only [decide_not, Bool.not_eq_true', decide_eq_false_iff_not]
    intro hmem
    exact hdisj hmem (List.mem_map_of_mem LogFile.day hf)
  have key : (l.insertionSort mtimeLe).filter
      (fun f => f.day ∉ ((l.insertionSort mtimeLe).take k).map LogFile.day)
      = (l.insertionSort mtimeLe).drop k := by
    have hc := congrArg
      (List.filter (fun f => decide (f.day ∉ ((l.insertionSort mtimeLe).take k).map LogFile.day)))
      hsplit
    rw [List.filter_append, h1, h2] at hc
    simpa using hc.symm
  rw [key]
/-- C2 (amended): whenever `_cleanup_old_files` runs with
`retention_count = N > 0` over more than `N` matching dated files (all
deletions succeeding, file names distinct), exactly `N` files remain,
every survivor was already present, and every deleted file is at most as
recently modified as every survivor — the survivors are the `N` most
recent.  The claim's consequence that exactly `N` files remain after
appending across `N+5` days is false: rotation runs this cleanup before
the new day's file is created, so `N+1` dated files remain (see the
counterexample). -/
theorem retention_cleanup_amended (s : SinkState)
    (hN : 0 < s.maxFiles)
    (hlen : s.maxFiles < (s.files.length : Int))
    (hnd : (s.files.map LogFile.day).Nodup) :
    ((cleanupOldFiles s).files.length : Int) = s.maxFiles ∧
    (∀ f ∈ (cleanupOldFiles s).files, f ∈ s.files) ∧
    (∀ g ∈ s.files, g ∉ (cleanupOldFiles s).files →
      ∀ f ∈ (cleanupOldFiles s).files, g.mtime ≤ f.mtime) := by
  have hnle : ¬ ((s.files.length : Int) ≤ s.maxFiles) := not_le.mpr hlen
  have hsortlen : (s.files.insertionSort mtimeLe).length = s.files.length :=
    (s.files.perm_insertionSort mtimeLe).length_eq
  have habs : (s.maxFiles.natAbs : Int) = s.maxFiles := Int.natAbs_of_nonneg (le_of_lt hN)
  have habslen : s.maxFiles.natAbs ≤ s.files.length := by omega
  have hpy : pyTakeTo (s.files.insertionSort mtimeLe) (-s.maxFiles)
      = (s.files.insertionSort mtimeLe).take (s.files.length - s.maxFiles.natAbs) := by
    unfold pyTakeTo
    rw [if_pos (by omega : -s.maxFiles < 0)]
    rw [Int.natAbs_neg, hsortlen]
  have hcl : (cleanupOldFiles s).files = s.files.filter
      (fun f => f.day ∉ (((s.files.insertionSort mtimeLe).take
        (s.files.length - s.maxFiles.natAbs)).map LogFile.day)) := by
    simp only [cleanupOldFiles, if_neg hnle, hpy]
  have hperm := cleanup_filter_perm s.files hnd (s.files.length - s.maxFiles.natAbs)
  refine ⟨?_, ?_, ?_⟩
  · rw [hcl]
    have hlen' := hperm.length_eq
    rw [List.length_drop, hsortlen] at hlen'
    rw [hlen']
    omega
  · intro f hf
    rw [hcl] at hf
    exact List.mem_of_mem_filter hf
  · intro g hg hgnot f hf
    rw [hcl] at hgnot hf
    have hsorted : List.Sorted mtimeLe (s.files.insertionSort mtimeLe) :=
      List.sorted_insertionSort mtimeLe s.files
    have hsplit : (s.files.insertionSort mtimeLe).take (s.files.length - s.maxFiles.natAbs)
        ++ (s.files.insertionSort mtimeLe).drop (s.files.length - s.maxFiles.natAbs)
        = s.files.insertionSort mtimeLe := List.take_append_drop _ _
    have hpairs : ∀ a ∈ (s.files.insertionSort mtimeLe).take (s.files.length - s.maxFiles.natAbs),
        ∀ b ∈ (s.files.insertionSort mtimeLe).drop (s.files.length - s.maxFiles.natAbs),
        mtimeLe a b := by
      have := hsorted
      rw [← hsplit] at this
      exact (List.pairwise_append.mp this).2.2
    -- g is among the removed prefix
    have hgmem : g ∈ s.files.insertionSort mtimeLe :=
      ((s.files.perm_insertionSort mtimeLe).mem_iff).mpr hg
    have hgday : g.day ∈ ((s.files.insertionSort mtimeLe).take
        (s.files.length - s.maxFiles.natAbs)).map LogFile.day := by
      by_contra hc
      exact hgnot (List.mem_filter.mpr ⟨hg, by simpa using hc⟩)
    have hnds : ((s.files.insertionSort mtimeLe).map LogFile.day).Nodup :=
      sorted_days_nodup s.files hnd
    have hdisj : (((s.files.insertionSort mtimeLe).take
          (s.files.length - s.maxFiles.natAbs)).map LogFile.day).Disjoint
        (((s.files.insertionSort mtimeLe).drop
          (s.files.length - s.maxFiles.natAbs)).map LogFile.day) := by
      rw [← hsplit, List.map_append] at hnds
      exact (List.nodup_append.mp hnds).2.2
    have hgtake : g ∈ (s.files.insertionSort mtimeLe).take
        (s.files.length - s.maxFiles.natAbs) := by
      rw [← hsplit] at hgmem
      rcases List.mem_append.mp hgmem with h | h
      · exact h
      · exact absurd (List.mem_map_of_mem LogFile.day h) (fun hm => hdisj hgday hm)
    have hfdrop : f ∈ (s.files.insertionSort mtimeLe).drop
        (s.files.length - s.maxFiles.natAbs) := hperm.mem_iff.mp hf
    exact hpairs g hgtake f hfdrop
/-- In the deletion branch of `_cleanup_old_files`, every file removed
by the slice (the sorted prefix of length `k`) is at most as recently
modified as every file that survives, for any prefix length `k`. -/
theorem filter_take_removed_oldest (l : List LogFile)
    (hnd : (l.map LogFile.day).Nodup) (k : Nat) :
    ∀ g ∈ l, g ∉ l.filter
        (fun f => f.day ∉ (((l.insertionSort mtimeLe).take k).map LogFile.day)) →
    ∀ f ∈ l.filter
        (fun f => f.day ∉ (((l.insertionSort mtimeLe).take k).map LogFile.day)),
      g.mtime ≤ f.mtime := by
  intro g hg hgnot f hf
  have hperm := cleanup_filter_perm l hnd k
  have hsorted : List.Sorted mtimeLe (l.insertionSort mtimeLe) :=
    List.sorted_insertionSort mtimeLe l
  have hsplit : (l.insertionSort mtimeLe).take k ++ (l.insertionSort mtimeLe).drop k
      = l.insertionSort mtimeLe := List.take_append_drop _ _
  have hpairs : ∀ a ∈ (l.insertionSort mtimeLe).take k,
      ∀ b ∈ (l.insertionSort mtimeLe).drop k, mtimeLe a b := by
    have hs := hsorted
    rw [← hsplit] at hs
    exact (List.pairwise_append.mp hs).2.2
  have hgmem : g ∈ l.insertionSort mtimeLe :=
    ((l.perm_insertionSort mtimeLe).mem_iff).mpr hg
  have hgday : g.day ∈ ((l.insertionSort mtimeLe).take k).map LogFile.day := by
    by_contra hc
    exact hgnot (List.mem_filter.mpr ⟨hg, by simpa using hc⟩)
  have hnds : ((l.insertionSort mtimeLe).map LogFile.day).Nodup :=
    sorted_days_nodup l hnd
  have hdisj : (((l.insertionSort mtimeLe).take k).map LogFile.day).Disjoint
      (((l.insertionSort mtimeLe).drop k).map LogFile.day) := by
    rw [← hsplit, List.map_append] at hnds
    exact (List.nodup_append.mp hnds).2.2
  have hgtake : g ∈ (l.insertionSort mtimeLe).take k := by
    rw [← hsplit] at hgmem
    rcases List.mem_append.mp hgmem with h | h
    · exact h
    · exact absurd (List.mem_map_of_mem LogFile.day h) (fun hm => hdisj hgday hm)
  have hfdrop : f ∈ (l.insertionSort mtimeLe).drop k := hperm.mem_iff.mp hf
  exact hpairs g hgtake f hfdrop

/-- C3 (amended): retention with `retention_count = 0` deletes nothing
(the slice `log_files[:-0]` is empty), but a negative `retention_count`
does delete files: cleanup removes the `|retention_count|` oldest
matching files (all of them when fewer exist) — `len - |retention_count|`
files survive, every survivor was already present, and every deleted
file is at most as recently modified as every survivor. -/
theorem retention_disabled_amended :
    (∀ s : SinkState, s.maxFiles = 0 → cleanupOldFiles s = s) ∧
    (∀ s : SinkState, s.maxFiles < 0 → (s.files.map LogFile.day).Nodup →
      (cleanupOldFiles s).files.length = s.files.length - s.maxFiles.natAbs
      ∧ (∀ f ∈ (cleanupOldFiles s).files, f ∈ s.files)
      ∧ (∀ g ∈ s.files, g ∉ (cleanupOldFiles s).files →
          ∀ f ∈ (cleanupOldFiles s).files, g.mtime ≤ f.mtime)) := by
  constructor
  · intro s h0
    by_cases hle : (s.files.length : Int) ≤ s.maxFiles
    · unfold cleanupOldFiles
      rw [if_pos hle]
    · have hpy : pyTakeTo (s.files.insertionSort mtimeLe) (-s.maxFiles) = [] := by
        unfold pyTakeTo
        rw [h0]
        simp
      have hfiles : (cleanupOldFiles s).files = s.files := by
        simp only [cleanupOldFiles, if_neg hle, hpy]
        rw [List.filter_eq_self]
        intro a _
        simp
      have hsame : cleanupOldFiles s = { s with files := (cleanupOldFiles s).files } := by
        unfold cleanupOldFiles
        split <;> rfl
      rw [hsame, hfiles]
  · intro s hneg hnd
    have hnle : ¬ ((s.files.length : Int) ≤ s.maxFiles) := by
      push_neg
      omega
    have hsortlen : (s.files.insertionSort mtimeLe).length = s.files.length :=
      (s.files.perm_insertionSort mtimeLe).length_eq
    have hpy : pyTakeTo (s.files.insertionSort mtimeLe) (-s.maxFiles)
        = (s.files.insertionSort mtimeLe).take s.maxFiles.natAbs := by
      unfold pyTakeTo
      rw [if_neg (by omega : ¬ (-s.maxFiles < 0))]
      congr 1
      omega
    have hcl : (cleanupOldFiles s).files = s.files.filter
        (fun f => f.day ∉ (((s.files.insertionSort mtimeLe).take
          s.maxFiles.natAbs).map LogFile.day)) := by
      simp only [cleanupOldFiles, if_neg hnle, hpy]
    have hperm := cleanup_filter_perm s.files hnd s.maxFiles.natAbs
    refine ⟨?_, ?_, ?_⟩
    · rw [hcl, hperm.length_eq, List.length_drop, hsortlen]
    · intro f hf
      rw [hcl] at hf
      exact List.mem_of_mem_filter hf
    · intro g hg hgnot f hf
      rw [hcl] at hgnot hf
      exact filter_take_removed_oldest s.files hnd s.maxFiles.natAbs g hg hgnot f hf

/-! ## Properties of the structured encoders -/

theorem digit10_ne_newline (n : Nat) : digit10 n ≠ '\n' := by
  unfold digit10
  have h : n % 10 < 10 := Nat.mod_lt _ (by omega)
  set m := n % 10 with hm
  interval_cases m <;> decide

theorem natDigitsAux_no_newline (fuel n : Nat) : '\n' ∉ natDigitsAux fuel n := by
  induction fuel generalizing n with
  | zero => simp [natDigitsAux]
  | succ fuel ih =>
    unfold natDigitsAux
    split
    · simp
      exact (digit10_ne_newline n).symm
    · simp [List.mem_append]
      refine ⟨fun h => (ih (n / 10)) h, ?_⟩
      exact fun h => (digit10_ne_newline n) h.symm

theorem natDigits_no_newline (n : Nat) : '\n' ∉ natDigits n := natDigitsAux_no_newline _ _

theorem intChars_no_newline (n : Int) : '\n' ∉ intChars n := by
  unfold intChars
  split
  · simp [natDigits_no_newline]
  · exact natDigits_no_newline _

theorem escapeChar_no_newline (c : Char) : '\n' ∉ escapeChar c := by
  unfold escapeChar
  split_ifs with h1 h2 h3 h4 h5 <;> simp_all
  exact fun h => h3 h.symm

theorem jsonStringChars_no_newline (s : String) : '\n' ∉ jsonStringChars s := by
  unfold jsonStringChars
  intro hmem
  rcases List.mem_cons.mp hmem with h | h
  · exact absurd h (by decide)
  rcases List.mem_append.mp h with h | h
  · rcases List.mem_flatten.mp h with ⟨l, hl, hc⟩
    rcases List.mem_map.mp hl with ⟨c, _, rfl⟩
    exact escapeChar_no_newline c hc
  · exact absurd h (by decide)

theorem joinSep_no_newline (sep : List Char) (hsep : '\n' ∉ sep)
    (parts : List (List Char)) (hp : ∀ p ∈ parts, '\n' ∉ p) : '\n' ∉ joinSep sep parts := by
  induction parts with
  | nil => simp [joinSep]
  | cons p ps ih =>
    cases ps with
    | nil => exact hp p (by simp)
    | cons q qs =>
      simp only [joinSep, List.mem_append]
      push_neg
      refine ⟨⟨hp p (by simp), hsep⟩, ?_⟩
      exact ih (fun x hx => hp x (List.mem_cons_of_mem p hx))
mutual
theorem pyDumpMin_no_newline : ∀ (v : PyVal) (cs : List Char),
    pyDumpMin v = some cs → '\n' ∉ cs
  | PyVal.str s, cs, h => by
      rw [pyDumpMin] at h
      cases h
      exact jsonStringChars_no_newline s
  | PyVal.int n, cs, h => by
      rw [pyDumpMin] at h
      cases h
      exact intChars_no_newline n
  | PyVal.bool b, cs, h => by
      rw [pyDumpMin] at h
      cases h
      cases b <;> decide
  | PyVal.pynone, cs, h => by
      rw [pyDumpMin] at h
      cases h
      decide
  | PyVal.blob tag, cs, h => by
      rw [pyDumpMin] at h
      cases h
  | PyVal.list items, cs, h => by
      rw [pyDumpMin] at h
      cases hl : pyDumpMinList items with
      | none => rw [hl] at h; cases h
      | some parts =>
        rw [hl] at h
        cases h
        have hparts := pyDumpMinList_no_newline items parts hl
        intro hmem
        rcases List.mem_cons.mp hmem with h' | h'
        · exact absurd h' (by decide)
        rcases List.mem_append.mp h' with h' | h'
        · exact joinSep_no_newline (", ".data) (by decide) parts hparts h'
        · exact absurd h' (by decide)
  | PyVal.dict items, cs, h => by
      rw [pyDumpMin] at h
      cases hl : pyDumpMinDict items with
      | none => rw [hl] at h; cases h
      | some parts =>
        rw [hl] at h
        cases h
        have hparts := pyDumpMinDict_no_newline items parts hl
        intro hmem
        rcases List.mem_cons.mp hmem with h' | h'
        · exact absurd h' (by decide)
        rcases List.mem_append.mp h' with h' | h'
        · exact joinSep_no_newline (", ".data) (by decide) parts hparts h'
        · exact absurd h' (by decide)

theorem pyDumpMinList_no_newline : ∀ (items : List PyVal) (parts : List (List Char)),
    pyDumpMinList items = some parts → ∀ p ∈ parts, '\n' ∉ p
  | [], parts, h => by
      rw [pyDumpMinList] at h
      cases h
      simp
  | v :: vs, parts, h => by
      rw [pyDumpMinList] at h
      cases hv : pyDumpMin v with
      | none => rw [hv] at h; simp at h
      | some c =>
        cases hvs : pyDumpMinList vs with
        | none => rw [hv, hvs] at h; simp at h
        | some cs =>
          rw [hv, hvs] at h
          simp only [Option.bind_some, Option.some.injEq, pure] at h
          cases h
          intro p hp
          rcases List.mem_cons.mp hp with h' | h'
          · exact h' ▸ pyDumpMin_no_newline v c hv
          · exact pyDumpMinList_no_newline vs cs hvs p h'

theorem pyDumpMinDict_no_newline : ∀ (items : List (String × PyVal)) (parts : List (List Char)),
    pyDumpMinDict items = some parts → ∀ p ∈ parts, '\n' ∉ p
  | [], parts, h => by
      rw [pyDumpMinDict] at h
      cases h
      simp
  | (k, v) :: kvs, parts, h => by
      rw [pyDumpMinDict] at h
      cases hv : pyDumpMin v with
      | none => rw [hv] at h; simp at h
      | some c =>
        cases hvs : pyDumpMinDict kvs with
        | none => rw [hv, hvs] at h; simp at h
        | some cs =>
          rw [hv, hvs] at h
          simp only [Option.bind_some, Option.some.injEq, pure] at h
          cases h
          intro p hp
          rcases List.mem_cons.mp hp with h' | h'
          · subst h'
            intro hmem
            rcases List.mem_append.mp hmem with h' | h'
            · exact jsonStringChars_no_newline k h'
            rcases List.mem_cons.mp h' with h' | h'
            · exact absurd h' (by decide)
            rcases List.mem_cons.mp h' with h' | h'
            · exact absurd h' (by decide)
            · exact pyDumpMin_no_newline v c hv h'
          · exact pyDumpMinDict_no_newline kvs cs hvs p h'
end

theorem pyDumpMinDict_isSome : ∀ (l : List (String × PyVal)),
    (∀ p ∈ l, (pyDumpMin p.2).isSome) → (pyDumpMinDict l).isSome
  | [], _ => by rw [pyDumpMinDict]; rfl
  | (k, v) :: kvs, h => by
      rw [pyDumpMinDict]
      have hv := h (k, v) (by simp)
      rcases Option.isSome_iff_exists.mp hv with ⟨c, hc⟩
      have hk := pyDumpMinDict_isSome kvs (fun p hp => h p (by simp [hp]))
      rcases Option.isSome_iff_exists.mp hk with ⟨cs, hcs⟩
      rw [hc, hcs]
      rfl

theorem pyDumpMin_dict_isSome (l : List (String × PyVal))
    (h : ∀ p ∈ l, (pyDumpMin p.2).isSome) : (pyDumpMin (PyVal.dict l)).isSome := by
  rw [pyDumpMin]
  rcases Option.isSome_iff_exists.mp (pyDumpMinDict_isSome l h) with ⟨parts, hp⟩
  rw [hp]
  rfl

theorem pySet_preserves (P : PyVal → Prop) (l : List (String × PyVal)) (k : String) (v : PyVal)
    (hl : ∀ p ∈ l, P p.2) (hv : P v) : ∀ p ∈ pySet l k v, P p.2 := by
  intro p hp
  unfold pySet at hp
  split at hp
  · rcases List.mem_map.mp hp with ⟨q, hq, hpq⟩
    by_cases hqk : q.1 = k
    · rw [if_pos hqk] at hpq
      rw [← hpq]
      exact hv
    · rw [if_neg hqk] at hpq
      exact hpq ▸ hl q hq
  · rcases List.mem_append.mp hp with h' | h'
    · exact hl p h'
    · rcases List.mem_cons.mp h' with h' | h'
      · rw [h']
        exact hv
      · cases h'

theorem foldl_pySet_preserves (P : PyVal → Prop) :
    ∀ (entries : List (String × PyVal)) (acc : List (String × PyVal)),
    (∀ p ∈ acc, P p.2) → (∀ p ∈ entries, P p.2) →
    ∀ p ∈ entries.foldl (fun acc q => pySet acc q.1 q.2) acc, P p.2
  | [], acc, hacc, _ => hacc
  | e :: es, acc, hacc, hes => by
      rw [List.foldl_cons]
      exact foldl_pySet_preserves P es (pySet acc e.1 e.2)
        (pySet_preserves P acc e.1 e.2 hacc (hes e (by simp)))
        (fun p hp => hes p (by simp [hp]))

theorem structuredDict_serializable (r : LogRecord)
    (h : ∀ p ∈ r.attrs, (pyDumpMin p.2).isSome) :
    ∀ p ∈ structuredDict r, (pyDumpMin p.2).isSome := by
  unfold structuredDict
  have hbase : ∀ p ∈ [("timestamp", PyVal.str r.createdIso), ("level", PyVal.str r.levelname),
      ("logger", PyVal.str r.name), ("message", PyVal.str r.msg),
      ("module", PyVal.str r.module), ("function", PyVal.str r.funcName),
      ("line", PyVal.int r.lineno)], (pyDumpMin p.2).isSome := by
    intro p hp
    simp only [List.mem_cons, List.not_mem_nil, or_false] at hp
    rcases hp with h' | h' | h' | h' | h' | h' | h' <;> subst h' <;> rw [pyDumpMin] <;> rfl
  cases hexc : r.excText with
  | none =>
    simp only [hexc]
    exact foldl_pySet_preserves (fun v => (pyDumpMin v).isSome = true) _ _ hbase
      (fun p hp => h p (List.mem_of_mem_filter hp))
  | some e =>
    simp only [hexc]
    refine foldl_pySet_preserves (fun v => (pyDumpMin v).isSome = true) _ _ ?_
      (fun p hp => h p (List.mem_of_mem_filter hp))
    refine pySet_preserves (fun v => (pyDumpMin v).isSome = true) _ _ _ hbase ?_
    rfl

theorem structuredFormat_total (r : LogRecord)
    (h : ∀ p ∈ r.attrs, (pyDumpMin p.2).isSome) : (structuredFormat r).isSome := by
  unfold structuredFormat
  rcases Option.isSome_iff_exists.mp
    (pyDumpMin_dict_isSome (structuredDict r) (structuredDict_serializable r h)) with ⟨cs, hcs⟩
  rw [hcs]
  rfl

theorem structuredFormat_single_line (r : LogRecord) (s : String)
    (h : structuredFormat r = some s) : '\n' ∉ s.data := by
  unfold structuredFormat at h
  cases hd : pyDumpMin (PyVal.dict (structuredDict r)) with
  | none => rw [hd] at h; cases h
  | some cs =>
    rw [hd] at h
    cases h
    exact pyDumpMin_no_newline _ cs hd
theorem pyDumpIndDict_isSome : ∀ (ind depth : Nat) (l : List (String × PyVal)),
    (∀ p ∈ l, (pyDumpInd ind depth p.2).isSome) → (pyDumpIndDict ind depth l).isSome
  | _, _, [], _ => by rw [pyDumpIndDict]; rfl
  | ind, depth, (k, v) :: kvs, h => by
      rw [pyDumpIndDict]
      rcases Option.isSome_iff_exists.mp (h (k, v) (by simp)) with ⟨c, hc⟩
      rcases Option.isSome_iff_exists.mp
        (pyDumpIndDict_isSome ind depth kvs (fun p hp => h p (by simp [hp]))) with ⟨cs, hcs⟩
      rw [hc, hcs]
      rfl

theorem pyDumpInd_dict_isSome (ind depth : Nat) (l : List (String × PyVal))
    (h : ∀ p ∈ l, (pyDumpInd ind (depth + 1) p.2).isSome) :
    (pyDumpInd ind depth (PyVal.dict l)).isSome := by
  cases l with
  | nil => rw [pyDumpInd]; rfl
  | cons kv kvs =>
    rw [pyDumpInd]
    rcases Option.isSome_iff_exists.mp (pyDumpIndDict_isSome ind (depth + 1) (kv :: kvs) h)
      with ⟨parts, hp⟩
    rw [hp]
    rfl

theorem interactionFormat_total_no_attrs (r : LogRecord) (h : r.attrs = []) :
    (interactionFormat r).isSome := by
  unfold interactionFormat interactionDict
  rw [h]
  simp only [pyGet, List.find?_nil, Option.map_none, Option.getD_none]
  refine Option.isSome_iff_exists.mpr ?_
  rcases Option.isSome_iff_exists.mp (pyDumpInd_dict_isSome 2 0
    [("timestamp", PyVal.str r.createdHMS), ("session_id", PyVal.str "unknown"),
     ("interaction_type", PyVal.str "general"), ("user_id", PyVal.str "anonymous"),
     ("message", PyVal.str r.msg)]
    (by intro p hp
        simp only [List.mem_cons, List.not_mem_nil, or_false] at hp
        rcases hp with h' | h' | h' | h' | h' <;> subst h' <;> rw [pyDumpInd] <;> rfl))
    with ⟨cs, hcs⟩
  exact ⟨String.mk cs, by simp [hcs]⟩

theorem structuredFormat_blob (r : LogRecord) (tag : String)
    (h : r.attrs = [("metadata", PyVal.blob tag)]) : structuredFormat r = Option.none := by
  cases hexc : r.excText with
  | none =>
    simp [structuredFormat, structuredDict, hexc, h, excludedKeys, pySet,
      pyDumpMin, pyDumpMinDict]
  | some e =>
    simp [structuredFormat, structuredDict, hexc, h, excludedKeys, pySet,
      pyDumpMin, pyDumpMinDict]

theorem pySet_ne_nil (l : List (String × PyVal)) (k : String) (v : PyVal) :
    pySet l k v ≠ [] := by
  unfold pySet
  split
  · next h =>
    intro hc
    rw [List.map_eq_nil_iff] at hc
    subst hc
    simp at h
  · simp

theorem foldl_pySet_ne_nil :
    ∀ (entries acc : List (String × PyVal)), acc ≠ [] →
    entries.foldl (fun acc q => pySet acc q.1 q.2) acc ≠ []
  | [], acc, h => h
  | e :: es, acc, h => by
      rw [List.foldl_cons]
      exact foldl_pySet_ne_nil es _ (pySet_ne_nil acc e.1 e.2)

theorem pyDumpInd_dict_has_newline (ind depth : Nat) (kv : String × PyVal)
    (kvs : List (String × PyVal)) (cs : List Char)
    (h : pyDumpInd ind depth (PyVal.dict (kv :: kvs)) = some cs) : '\n' ∈ cs := by
  rw [pyDumpInd] at h
  cases hd : pyDumpIndDict ind (depth + 1) (kv :: kvs) with
  | none => rw [hd] at h; cases h
  | some parts =>
    rw [hd] at h
    cases h
    simp

theorem interactionDict_ne_nil (r : LogRecord) (d : List (String × PyVal))
    (h : interactionDict r = some d) : d ≠ [] := by
  unfold interactionDict at h
  cases hg : pyGet r.attrs "interaction_data" with
  | none =>
    rw [hg] at h
    injection h with h
    subst h
    repeat' split
    all_goals first
      | exact pySet_ne_nil _ _ _
      | simp
  | some v =>
    rw [hg] at h
    cases v
    case dict entries =>
      injection h with h
      subst h
      have hbase : pyUpdate [("timestamp", PyVal.str r.createdHMS),
          ("session_id", (pyGet r.attrs "session_id").getD (PyVal.str "unknown")),
          ("interaction_type", (pyGet r.attrs "interaction_type").getD (PyVal.str "general")),
          ("user_id", (pyGet r.attrs "user_id").getD (PyVal.str "anonymous")),
          ("message", PyVal.str r.msg)] entries ≠ [] :=
        foldl_pySet_ne_nil entries _ (by simp)
      repeat' split
      all_goals first
        | exact pySet_ne_nil _ _ _
        | exact hbase
    all_goals exact Option.noConfusion h

theorem interactionFormat_multi_line (r : LogRecord) (s : String)
    (h : interactionFormat r = some s) : '\n' ∈ s.data := by
  unfold interactionFormat at h
  cases hd : interactionDict r with
  | none => rw [hd] at h; cases h
  | some d =>
    rw [hd] at h
    have hne : d ≠ [] := interactionDict_ne_nil r d hd
    cases d with
    | nil => exact absurd rfl hne
    | cons kv kvs =>
      simp only [Option.some_bind] at h
      cases hdump : pyDumpInd 2 0 (PyVal.dict (kv :: kvs)) with
      | none => rw [hdump] at h; cases h
      | some cs =>
        rw [hdump] at h
        injection h with h
        subst h
        exact pyDumpInd_dict_has_newline 2 0 kv kvs cs hdump
mutual
theorem pyDumpInd_isSome_eq : ∀ (i d : Nat) (v : PyVal),
    (pyDumpInd i d v).isSome = (pyDumpMin v).isSome
  | _, _, PyVal.str s => by rw [pyDumpInd, pyDumpMin]
  | _, _, PyVal.int n => by rw [pyDumpInd, pyDumpMin]
  | _, _, PyVal.bool b => by rw [pyDumpInd, pyDumpMin]
  | _, _, PyVal.pynone => by rw [pyDumpInd, pyDumpMin]
  | _, _, PyVal.blob tag => by rw [pyDumpInd, pyDumpMin]
  | i, d, PyVal.list [] => by
      rw [pyDumpInd, pyDumpMin, pyDumpMinList]
      rfl
  | i, d, PyVal.list (v :: vs) => by
      rw [pyDumpInd, pyDumpMin]
      have h := pyDumpIndList_isSome_eq i (d + 1) (v :: vs)
      cases hi : pyDumpIndList i (d + 1) (v :: vs) with
      | none =>
        cases hm : pyDumpMinList (v :: vs) with
        | none => rfl
        | some parts => rw [hi, hm] at h; cases h
      | some parts =>
        cases hm : pyDumpMinList (v :: vs) with
        | none => rw [hi, hm] at h; cases h
        | some parts' => rfl
  | i, d, PyVal.dict [] => by
      rw [pyDumpInd, pyDumpMin, pyDumpMinDict]
      rfl
  | i, d, PyVal.dict (kv :: kvs) => by
      rw [pyDumpInd, pyDumpMin]
      have h := pyDumpIndDict_isSome_eq i (d + 1) (kv :: kvs)
      cases hi : pyDumpIndDict i (d + 1) (kv :: kvs) with
      | none =>
        cases hm : pyDumpMinDict (kv :: kvs) with
        | none => rfl
        | some parts => rw [hi, hm] at h; cases h
      | some parts =>
        cases hm : pyDumpMinDict (kv :: kvs) with
        | none => rw [hi, hm] at h; cases h
        | some parts' => rfl

theorem pyDumpIndList_isSome_eq : ∀ (i d : Nat) (items : List PyVal),
    (pyDumpIndList i d items).isSome = (pyDumpMinList items).isSome
  | _, _, [] => by rw [pyDumpIndList, pyDumpMinList]
  | i, d, v :: vs => by
      rw [pyDumpIndList, pyDumpMinList]
      have hv := pyDumpInd_isSome_eq i d v
      have hvs := pyDumpIndList_isSome_eq i d vs
      cases hiv : pyDumpInd i d v with
      | none =>
        cases hmv : pyDumpMin v with
        | none => rfl
        | some c => rw [hiv, hmv] at hv; cases hv
      | some c =>
        cases hmv : pyDumpMin v with
        | none => rw [hiv, hmv] at hv; cases hv
        | some c' =>
          cases his : pyDumpIndList i d vs with
          | none =>
            cases hms : pyDumpMinList vs with
            | none => rfl
            | some ps => rw [his, hms] at hvs; cases hvs
          | some ps =>
            cases hms : pyDumpMinList vs with
            | none => rw [his, hms] at hvs; cases hvs
            | some ps' => rfl

theorem pyDumpIndDict_isSome_eq : ∀ (i d : Nat) (kvs : List (String × PyVal)),
    (pyDumpIndDict i d kvs).isSome = (pyDumpMinDict kvs).isSome
  | _, _, [] => by rw [pyDumpIndDict, pyDumpMinDict]
  | i, d, (k, v) :: kvs => by
      rw [pyDumpIndDict, pyDumpMinDict]
      have hv := pyDumpInd_isSome_eq i d v
      have hvs := pyDumpIndDict_isSome_eq i d kvs
      cases hiv : pyDumpInd i d v with
      | none =>
        cases hmv : pyDumpMin v with
        | none => rfl
        | some c => rw [hiv, hmv] at hv; cases hv
      | some c =>
        cases hmv : pyDumpMin v with
        | none => rw [hiv, hmv] at hv; cases hv
        | some c' =>
          cases his : pyDumpIndDict i d kvs with
          | none =>
            cases hms : pyDumpMinDict kvs with
            | none => rfl
            | some ps => rw [his, hms] at hvs; cases hvs
          | some ps =>
            cases hms : pyDumpMinDict kvs with
            | none => rw [his, hms] at hvs; cases hvs
            | some ps' => rfl
end

theorem pyDumpMinDict_isSome_mp : ∀ (l : List (String × PyVal)),
    (pyDumpMinDict l).isSome → ∀ p ∈ l, (pyDumpMin p.2).isSome
  | [], _, p, hp => absurd hp (List.not_mem_nil p)
  | (k, v) :: kvs, h, p, hp => by
      rw [pyDumpMinDict] at h
      cases hv : pyDumpMin v with
      | none => rw [hv] at h; cases h
      | some c =>
        rw [hv] at h
        cases hvs : pyDumpMinDict kvs with
        | none => rw [hvs] at h; cases h
        | some cs =>
          rcases List.mem_cons.mp hp with h' | h'
          · rw [h']
            rw [hv]
            rfl
          · exact pyDumpMinDict_isSome_mp kvs (by rw [hvs]; rfl) p h'

theorem pyDumpMin_dict_isSome_mp (l : List (String × PyVal))
    (h : (pyDumpMin (PyVal.dict l)).isSome) : ∀ p ∈ l, (pyDumpMin p.2).isSome := by
  rw [pyDumpMin] at h
  cases hd : pyDumpMinDict l with
  | none => rw [hd] at h; cases h
  | some parts => exact pyDumpMinDict_isSome_mp l (by rw [hd]; rfl)

theorem pyGet_mem (l : List (String × PyVal)) (k : String) (v : PyVal)
    (h : pyGet l k = some v) : ∃ p ∈ l, p.2 = v := by
  unfold pyGet at h
  cases hf : l.find? (fun p => p.1 = k) with
  | none => rw [hf] at h; cases h
  | some p =>
    rw [hf] at h
    injection h with h
    exact ⟨p, List.mem_of_find?_eq_some hf, h⟩
theorem interactionDict_spec (r : LogRecord)
    (hser : ∀ p ∈ r.attrs, (pyDumpMin p.2).isSome)
    (hdict : ∀ v, pyGet r.attrs "interaction_data" = some v →
      ∃ entries, v = PyVal.dict entries) :
    ∃ d, interactionDict r = some d ∧ ∀ p ∈ d, (pyDumpMin p.2).isSome := by
  have hstep : ∀ (k key : String) (d : List (String × PyVal)),
      (∀ p ∈ d, (pyDumpMin p.2).isSome = true) →
      ∀ p ∈ (match pyGet r.attrs k with
              | some v => pySet d key v
              | Option.none => d), (pyDumpMin p.2).isSome = true := by
    intro k key d hd
    cases hk : pyGet r.attrs k with
    | none => exact hd
    | some v =>
      rcases pyGet_mem r.attrs k v hk with ⟨p, hp, hpv⟩
      exact pySet_preserves (fun w => (pyDumpMin w).isSome = true) d key v hd
        (hpv ▸ hser p hp)
  have hget : ∀ (k dflt : String),
      (pyDumpMin ((pyGet r.attrs k).getD (PyVal.str dflt))).isSome = true := by
    intro k dflt
    cases hk : pyGet r.attrs k with
    | none => rfl
    | some v =>
      rcases pyGet_mem r.attrs k v hk with ⟨p, hp, hpv⟩
      have h := hser p hp
      rw [hpv] at h
      exact h
  have hbase : ∀ p ∈ [("timestamp", PyVal.str r.createdHMS),
      ("session_id", (pyGet r.attrs "session_id").getD (PyVal.str "unknown")),
      ("interaction_type", (pyGet r.attrs "interaction_type").getD (PyVal.str "general")),
      ("user_id", (pyGet r.attrs "user_id").getD (PyVal.str "anonymous")),
      ("message", PyVal.str r.msg)], (pyDumpMin p.2).isSome = true := by
    intro p hp
    simp only [List.mem_cons, List.not_mem_nil, or_false] at hp
    rcases hp with h' | h' | h' | h' | h' <;> subst h'
    · rfl
    · exact hget "session_id" "unknown"
    · exact hget "interaction_type" "general"
    · exact hget "user_id" "anonymous"
    · rfl
  unfold interactionDict
  cases hg : pyGet r.attrs "interaction_data" with
  | none =>
    refine ⟨_, rfl, ?_⟩
    exact hstep "tool_name" "tool" _
      (hstep "agent_name" "agent" _ (hstep "duration" "duration_ms" _ hbase))
  | some v =>
    rcases hdict v hg with ⟨entries, rfl⟩
    have hentries : ∀ p ∈ entries, (pyDumpMin p.2).isSome = true := by
      rcases pyGet_mem r.attrs "interaction_data" _ hg with ⟨p, hp, hpv⟩
      have h := hser p hp
      rw [hpv] at h
      exact pyDumpMin_dict_isSome_mp entries h
    refine ⟨_, rfl, ?_⟩
    exact hstep "tool_name" "tool" _
      (hstep "agent_name" "agent" _ (hstep "duration" "duration_ms" _
        (foldl_pySet_preserves (fun w => (pyDumpMin w).isSome = true) entries _
          hbase hentries)))

theorem interactionFormat_total (r : LogRecord)
    (hser : ∀ p ∈ r.attrs, (pyDumpMin p.2).isSome)
    (hdict : ∀ v, pyGet r.attrs "interaction_data" = some v →
      ∃ entries, v = PyVal.dict entries) :
    (interactionFormat r).isSome := by
  rcases interactionDict_spec r hser hdict with ⟨d, hd, hdser⟩
  unfold interactionFormat
  rw [hd]
  simp only [Option.some_bind]
  have h2 : (pyDumpInd 2 0 (PyVal.dict d)).isSome := by
    rw [pyDumpInd_isSome_eq]
    exact pyDumpMin_dict_isSome d hdser
  rcases Option.isSome_iff_exists.mp h2 with ⟨cs, hcs⟩
  rw [hcs]
  rfl

/-! ## Claim theorems: witnesses and counterexamples -/

/-- C1 witness: a sink holding day 0's file with one record, appended to
on day 1 — the sink switches to day 1's file, the new record lands
there, and day 0's file still holds exactly its record. -/
theorem rotating_sink_day_boundary_witness :
    ((([⟨0, 0, ["r1"]⟩] : List LogFile).map LogFile.day).Nodup
      ∧ ((([⟨0, 0, ["r1"]⟩] : List LogFile).length : Int) ≤ 30))
    ∧ (emit 1 1 "r2" ⟨30, 0, [⟨0, 0, ["r1"]⟩]⟩).currentDate = 1
    ∧ filesLines (emit 1 1 "r2" ⟨30, 0, [⟨0, 0, ["r1"]⟩]⟩).files 1 = ["r2"]
    ∧ filesLines (emit 1 1 "r2" ⟨30, 0, [⟨0, 0, ["r1"]⟩]⟩).files 0 = ["r1"] := by
  have h := rotating_sink_day_boundary ⟨30, 0, [⟨0, 0, ["r1"]⟩]⟩ 1 1 "r2"
    (by decide) (by decide)
  refine ⟨⟨by decide, by decide⟩, h.1, ?_, ?_⟩
  · rw [h.2.1]
    decide
  · rw [h.2.2 0 (by decide)]
    decide

/-- C2 counterexample: with `retention_count = 1`, appending one record
on each of six (`N+5`) consecutive days starting from a fresh sink
leaves 2 dated files, not 1 — rotation runs cleanup before creating the
new day's file. -/
theorem retention_count_counterexample :
    (runAppends (initSink 1 0 0)
      [(0, 0, "e0"), (1, 1, "e1"), (2, 2, "e2"),
       (3, 3, "e3"), (4, 4, "e4"), (5, 5, "e5")]).files.length = 2 ∧
    (runAppends (initSink 1 0 0)
      [(0, 0, "e0"), (1, 1, "e1"), (2, 2, "e2"),
       (3, 3, "e3"), (4, 4, "e4"), (5, 5, "e5")]).files.length ≠ 1 := by
  constructor <;> decide

/-- C2 witness: cleanup over three distinctly named files with
`retention_count = 2` keeps exactly two, both drawn from the originals,
and every deleted file is no newer than any survivor. -/
theorem retention_cleanup_amended_witness :
    (0 < (2 : Int) ∧ (2 : Int) < (([⟨0, 0, []⟩, ⟨1, 1, []⟩, ⟨2, 2, []⟩] : List LogFile).length : Int)
      ∧ (([⟨0, 0, []⟩, ⟨1, 1, []⟩, ⟨2, 2, []⟩] : List LogFile).map LogFile.day).Nodup)
    ∧ (((cleanupOldFiles ⟨2, 0, [⟨0, 0, []⟩, ⟨1, 1, []⟩, ⟨2, 2, []⟩]⟩).files.length : Int) = 2
      ∧ (∀ f ∈ (cleanupOldFiles ⟨2, 0, [⟨0, 0, []⟩, ⟨1, 1, []⟩, ⟨2, 2, []⟩]⟩).files,
          f ∈ ([⟨0, 0, []⟩, ⟨1, 1, []⟩, ⟨2, 2, []⟩] : List LogFile))
      ∧ (∀ g ∈ ([⟨0, 0, []⟩, ⟨1, 1, []⟩, ⟨2, 2, []⟩] : List LogFile),
          g ∉ (cleanupOldFiles ⟨2, 0, [⟨0, 0, []⟩, ⟨1, 1, []⟩, ⟨2, 2, []⟩]⟩).files →
          ∀ f ∈ (cleanupOldFiles ⟨2, 0, [⟨0, 0, []⟩, ⟨1, 1, []⟩, ⟨2, 2, []⟩]⟩).files,
            g.mtime ≤ f.mtime)) := by
  refine ⟨⟨by decide, by decide, by decide⟩, ?_⟩
  exact retention_cleanup_amended ⟨2, 0, [⟨0, 0, []⟩, ⟨1, 1, []⟩, ⟨2, 2, []⟩]⟩
    (by decide) (by decide) (by decide)

/-- C3 counterexample: with `retention_count = -1` and a single dated
file present, cleanup deletes that file — retention is not disabled for
negative `retention_count`. -/
theorem retention_disabled_counterexample :
    (cleanupOldFiles ⟨-1, 0, [⟨0, 5, ["x"]⟩]⟩).files = []
    ∧ ([⟨0, 5, ["x"]⟩] : List LogFile) ≠ [] := by
  constructor <;> decide

/-- C3 witness: with `retention_count = 0` two files survive untouched,
while with `retention_count = -2` three distinctly named files shrink to
one — specifically the two oldest are deleted and the most recently
modified file is the one that survives. -/
theorem retention_disabled_amended_witness :
    cleanupOldFiles ⟨0, 9, [⟨0, 0, []⟩, ⟨1, 1, []⟩]⟩ = ⟨0, 9, [⟨0, 0, []⟩, ⟨1, 1, []⟩]⟩
    ∧ ((-2 : Int) < 0
      ∧ (([⟨0, 0, []⟩, ⟨1, 1, []⟩, ⟨2, 2, []⟩] : List LogFile).map LogFile.day).Nodup
      ∧ (cleanupOldFiles ⟨-2, 0, [⟨0, 0, []⟩, ⟨1, 1, []⟩, ⟨2, 2, []⟩]⟩).files.length
          = ([⟨0, 0, []⟩, ⟨1, 1, []⟩, ⟨2, 2, []⟩] : List LogFile).length - (-2 : Int).natAbs
      ∧ (∀ f ∈ (cleanupOldFiles ⟨-2, 0, [⟨0, 0, []⟩, ⟨1, 1, []⟩, ⟨2, 2, []⟩]⟩).files,
          f ∈ ([⟨0, 0, []⟩, ⟨1, 1, []⟩, ⟨2, 2, []⟩] : List LogFile))
      ∧ (∀ g ∈ ([⟨0, 0, []⟩, ⟨1, 1, []⟩, ⟨2, 2, []⟩] : List LogFile),
          g ∉ (cleanupOldFiles ⟨-2, 0, [⟨0, 0, []⟩, ⟨1, 1, []⟩, ⟨2, 2, []⟩]⟩).files →
          ∀ f ∈ (cleanupOldFiles ⟨-2, 0, [⟨0, 0, []⟩, ⟨1, 1, []⟩, ⟨2, 2, []⟩]⟩).files,
            g.mtime ≤ f.mtime)
      ∧ (cleanupOldFiles ⟨-2, 0, [⟨0, 0, []⟩, ⟨1, 1, []⟩, ⟨2, 2, []⟩]⟩).files
          = [⟨2, 2, []⟩]) := by
  have h := retention_disabled_amended.2 ⟨-2, 0, [⟨0, 0, []⟩, ⟨1, 1, []⟩, ⟨2, 2, []⟩]⟩
    (by decide) (by decide)
  exact ⟨retention_disabled_amended.1 _ rfl, by decide, by decide,
    h.1, h.2.1, h.2.2, by decide⟩

/-- C4 counterexample: with interaction logging disabled (all else
default), an INFO record routed to the interactions channel is written
to the system channel's log file — not zero bytes to other log files. -/
theorem disabled_channel_counterexample :
    channelEnabled { enableInteraction := false } LogChannel.interactions = false
    ∧ routedFileWrites { enableInteraction := false } LogChannel.interactions 20
        = [FileTarget.systemDir]
    ∧ routedFileWrites { enableInteraction := false } LogChannel.interactions 20 ≠ [] := by
  refine ⟨by decide, by decide, by decide⟩

/-- C4 (amended): a record routed to a disabled channel is never written
under that channel's directory and the call raises no error, but the
disabled channel's logger keeps default propagation with no handler of
its own, so the record propagates to the root logger and is written to
the system log file whenever its level reaches the configured system
level (for the `Logger.log`-dispatched channels the `isEnabledFor`
check resolves to that same root level, so the same condition governs
both paths).  An enabled channel writes exactly to its own directory,
except that the `Logger.log`-dispatched channels (workflows,
performance, security) write nothing when the record level is below the
channel logger's configured level. -/
theorem disabled_channel_amended (cfg : SetupConfig) (ch : LogChannel) (lvl : Nat) :
    (channelEnabled cfg ch = false →
      FileTarget.channelDir ch ∉ routedFileWrites cfg ch lvl
      ∧ routedFileWrites cfg ch lvl
          = (if cfg.systemLevel ≤ lvl then [FileTarget.systemDir] else []))
    ∧ (channelEnabled cfg ch = true →
      routedFileWrites cfg ch lvl
        = (if usesLoggerLog ch = true ∧ lvl < channelLevel cfg ch then []
           else [FileTarget.channelDir ch])) := by
  constructor
  · intro hdis
    unfold routedFileWrites effectiveLevel
    rw [hdis]
    by_cases hgate : usesLoggerLog ch ∧ lvl < cfg.systemLevel
    · rw [if_pos (by simpa using hgate)]
      have hlt : ¬ (cfg.systemLevel ≤ lvl) := by omega
      simp [hlt]
    · rw [if_neg (by simpa using hgate)]
      simp
  · intro hen
    unfold routedFileWrites effectiveLevel
    rw [hen]
    by_cases hgate : usesLoggerLog ch = true ∧ lvl < channelLevel cfg ch
    · rw [if_pos hgate, if_pos (by simpa using hgate)]
    · rw [if_neg hgate, if_neg (by simpa using hgate)]
      simp

/-- C4 witness: the amended theorem at a configuration with interactions
disabled and the rest enabled — a disabled-channel INFO record goes to
the system file only; an enabled `handle`-dispatched channel (agents)
writes to its own directory; an enabled `Logger.log`-dispatched channel
(security, level fixed at INFO) writes nothing for a DEBUG-severity
record and writes to its own directory for an INFO record. -/
theorem disabled_channel_amended_witness :
    (channelEnabled { enableInteraction := false } LogChannel.interactions = false
      ∧ FileTarget.channelDir LogChannel.interactions
          ∉ routedFileWrites { enableInteraction := false } LogChannel.interactions 20
      ∧ routedFileWrites { enableInteraction := false } LogChannel.interactions 20
          = [FileTarget.systemDir])
    ∧ (channelEnabled { enableInteraction := false } LogChannel.agents = true
      ∧ routedFileWrites { enableInteraction := false } LogChannel.agents 20
          = [FileTarget.channelDir LogChannel.agents])
    ∧ (channelEnabled { enableInteraction := false } LogChannel.security = true
      ∧ routedFileWrites { enableInteraction := false } LogChannel.security 10 = []
      ∧ routedFileWrites { enableInteraction := false } LogChannel.security 20
          = [FileTarget.channelDir LogChannel.security]) := by
  have h1 := (disabled_channel_amended { enableInteraction := false }
    LogChannel.interactions 20).1 (by decide)
  have h2 := (disabled_channel_amended { enableInteraction := false }
    LogChannel.agents 20).2 (by decide)
  have h3 := (disabled_channel_amended { enableInteraction := false }
    LogChannel.security 10).2 (by decide)
  have h4 := (disabled_channel_amended { enableInteraction := false }
    LogChannel.security 20).2 (by decide)
  refine ⟨⟨by decide, h1.1, by simpa using h1.2⟩,
    ⟨by decide, by simpa using h2⟩,
    ⟨by decide, by simpa using h3, by simpa using h4⟩⟩

/-- C5 counterexample: `log_performance_metric` and `log_security_event`
return `None` and attach no `event_id` to the records they emit — they
do not generate and return a fresh event id. -/
theorem event_id_return_counterexample :
    (logPerformanceMetric ⟨"s1"⟩ "response_time" (PyVal.int 150) "ms" Option.none).1
        = Option.none
    ∧ "event_id" ∉ (logPerformanceMetric ⟨"s1"⟩ "response_time" (PyVal.int 150) "ms"
        Option.none).2.map Prod.fst
    ∧ (logSecurityEvent ⟨"s1"⟩ "authentication_failure" "bad key" "WARNING"
        Option.none Option.none Option.none).1 = Option.none
    ∧ "event_id" ∉ (logSecurityEvent ⟨"s1"⟩ "authentication_failure" "bad key" "WARNING"
        Option.none Option.none Option.none).2.map Prod.fst := by
  refine ⟨by decide, by decide, by decide, by decide⟩

/-- C5 (amended): the four record-constructing operations
(`log_interaction`, `log_agent_activity`, `log_workflow_event`,
`log_tool_usage`) each generate a fresh event id, return it to the
caller and embed it in the emitted record, while
`log_performance_metric` and `log_security_event` return `None` and
emit records carrying no `event_id` field at all. -/
theorem event_id_return_amended (lg : InteractionLogger) (n : Nat)
    (tsIso tsHMS et : String) (os₁ os₂ os₃ oe : Option String) (oi : Option Int)
    (om : Option (List (String × PyVal)))
    (an at' wt nn st tn mn un : String) (ot₁ ot₂ : Option Int)
    (od₁ od₂ : Option (List (String × PyVal))) (su : Bool) (v : PyVal)
    (ui ip : Option String) (sv ds : String) :
    ((logInteraction lg n tsIso tsHMS et os₁ os₂ os₃ oi om oe).1 = uuidStr n
      ∧ (∃ entries, pyGet (logInteraction lg n tsIso tsHMS et os₁ os₂ os₃ oi om oe).2.attrs
            "interaction_data" = some (PyVal.dict entries)
          ∧ ("event_id", PyVal.str (uuidStr n)) ∈ entries))
    ∧ ((logAgentActivity lg n tsIso an at' os₁ ot₁ ot₂ oi os₂ os₃ om).1 = uuidStr n
      ∧ (logAgentActivity lg n tsIso an at' os₁ ot₁ ot₂ oi os₂ os₃ om).2.event_id = uuidStr n)
    ∧ ((logWorkflowEvent lg n tsIso wt nn st od₁ od₂ oi oe).1 = uuidStr n
      ∧ (∃ entries, pyGet (logWorkflowEvent lg n tsIso wt nn st od₁ od₂ oi oe).2
            "workflow_event" = some (PyVal.dict entries)
          ∧ ("event_id", PyVal.str (uuidStr n)) ∈ entries))
    ∧ ((logToolUsage lg n tsIso tn od₁ os₁ os₂ oi su oe).1 = uuidStr n
      ∧ (∃ entries, pyGet (logToolUsage lg n tsIso tn od₁ os₁ os₂ oi su oe).2
            "tool_data" = some (PyVal.dict entries)
          ∧ ("event_id", PyVal.str (uuidStr n)) ∈ entries))
    ∧ ((logPerformanceMetric lg mn v un om).1 = Option.none
      ∧ "event_id" ∉ (logPerformanceMetric lg mn v un om).2.map Prod.fst)
    ∧ ((logSecurityEvent lg et ds sv ui ip om).1 = Option.none
      ∧ "event_id" ∉ (logSecurityEvent lg et ds sv ui ip om).2.map Prod.fst) := by
  refine ⟨⟨rfl, ⟨_, rfl, ?_⟩⟩, ⟨rfl, rfl⟩, ⟨rfl, ⟨_, rfl, ?_⟩⟩, ⟨rfl, ⟨_, rfl, ?_⟩⟩,
    ⟨rfl, ?_⟩, ⟨rfl, ?_⟩⟩
  · exact List.mem_cons_self _ _
  · exact List.mem_cons_self _ _
  · exact List.mem_cons_self _ _
  · simp [logPerformanceMetric]
  · simp [logSecurityEvent]
/-- C6 counterexample: an agent activity with a supplied
`prompt_tokens = 0` and `completion_tokens = 5` gets no `total_tokens`
(Python truthiness treats the supplied 0 as absent), where the claim
demands `total_tokens = 5`. -/
theorem total_tokens_counterexample :
    (logAgentActivity ⟨"s1"⟩ 0 "t" "researcher" "search" Option.none
      (some 0) (some 5) Option.none Option.none Option.none Option.none).2.total_tokens
      = Option.none
    ∧ (logAgentActivity ⟨"s1"⟩ 0 "t" "researcher" "search" Option.none
      (some 0) (some 5) Option.none Option.none Option.none Option.none).2.total_tokens
      ≠ some 5 := by
  constructor <;> decide

/-- C6 (amended): an agent-activity record carries `total_tokens = p + c`
exactly when both token counts are supplied and both are nonzero; if
either count is absent or equals 0, `total_tokens` is absent. -/
theorem total_tokens_amended (lg : InteractionLogger) (n : Nat) (ts an at' : String)
    (lm : Option String) (p c dm : Option Int) (i o : Option String)
    (md : Option (List (String × PyVal))) (k : Int) :
    (logAgentActivity lg n ts an at' lm p c dm i o md).2.total_tokens = some k
      ↔ ∃ a b, p = some a ∧ c = some b ∧ a ≠ 0 ∧ b ≠ 0 ∧ k = a + b := by
  cases p with
  | none => simp [logAgentActivity, pyTruthyOptInt]
  | some a =>
    cases c with
    | none => simp [logAgentActivity, pyTruthyOptInt]
    | some b =>
      by_cases ha : a = 0
      · simp [logAgentActivity, pyTruthyOptInt, ha]
      · by_cases hb : b = 0
        · simp [logAgentActivity, pyTruthyOptInt, ha, hb]
        · simp only [logAgentActivity, pyTruthyOptInt]
          rw [if_pos (by simp [ha, hb])]
          constructor
          · intro h
            exact ⟨a, b, rfl, rfl, ha, hb, by
              injection h with h
              simp at h
              omega⟩
          · rintro ⟨a', b', ha', hb', _, _, hk⟩
            injection ha' with ha'
            injection hb' with hb'
            subst ha'
            subst hb'
            simp [hk]

/-- C7 counterexample: with all channels enabled and only the agent
channel's handler creation failing, setup aborts at the agent step:
only the interaction channel is initialized — the workflow, tool,
performance and security channels are left uninitialized even though
they did not fail. -/
theorem setup_isolation_counterexample :
    runChannelSetups (fun _ => true) (fun d => d = SetupStep.agent)
      = ([SetupStep.interaction], some SetupStep.agent)
    ∧ SetupStep.workflow ∉ (runChannelSetups (fun _ => true)
        (fun d => d = SetupStep.agent)).1 := by
  constructor <;> decide

/-- C7 (amended): channel initializations run in a fixed order with no
isolation: when exactly one enabled channel `c` fails, its exception
propagates to the caller of setup and the channels initialized are
precisely those preceding `c` in the order — `c` itself and every later
channel are left uninitialized (hence disabled). -/
theorem setup_isolation_amended (c : SetupStep) :
    runChannelSetups (fun _ => true) (fun d => d = c)
      = (setupOrder.takeWhile (fun d => !decide (d = c)), some c) := by
  cases c <;> decide
/-- C8 counterexample: a record whose `metadata` attribute holds an
object `json.dumps` cannot serialize makes the structured encoder raise
(`none`): no placeholder is substituted and the record is not emitted. -/
theorem encoder_placeholder_counterexample :
    structuredFormat
      { name := "deer_flow.agents", levelname := "INFO", msg := "m",
        module := "", funcName := "", lineno := 0,
        createdIso := "2025-01-14T12:00:00", createdHMS := "2025-01-14 12:00:00",
        excText := Option.none, attrs := [("metadata", PyVal.blob "object")] }
      = Option.none := by
  decide

/-- C8 (amended): both encoders never throw on missing optional fields:
the structured encoder succeeds on every record whose attribute values
are serializable, and the interaction encoder succeeds on every record
whose attribute values are serializable and whose `interaction_data`
attribute, when present, is a mapping — which covers every record
`log_interaction` routes to it, with any subset of the optional fields
absent.  But a genuinely unserializable attribute value makes the
structured encoder raise `TypeError` (`none`), dropping the record
instead of substituting a placeholder. -/
theorem encoder_totality_amended :
    (∀ r : LogRecord, (∀ p ∈ r.attrs, (pyDumpMin p.2).isSome) → (structuredFormat r).isSome)
    ∧ (∀ r : LogRecord, (∀ p ∈ r.attrs, (pyDumpMin p.2).isSome) →
        (∀ v, pyGet r.attrs "interaction_data" = some v → ∃ entries, v = PyVal.dict entries) →
        (interactionFormat r).isSome)
    ∧ (∀ (r : LogRecord) (tag : String), r.attrs = [("metadata", PyVal.blob tag)] →
        structuredFormat r = Option.none) := by
  exact ⟨structuredFormat_total, interactionFormat_total, structuredFormat_blob⟩

/-- C8 witness: a concrete record with serializable attributes encodes
under the structured encoder; the record `log_interaction` builds for a
user query — optional `agent_response`, `agent_name`, `duration_ms` and
`error` all absent — encodes under the interaction encoder; and a
concrete unserializable attribute yields `none`. -/
theorem encoder_totality_amended_witness :
    (structuredFormat
      { name := "deer_flow.agents", levelname := "INFO", msg := "m",
        module := "", funcName := "", lineno := 3,
        createdIso := "2025-01-14T12:00:00", createdHMS := "2025-01-14 12:00:00",
        excText := Option.none,
        attrs := [("session_id", PyVal.str "s1")] }).isSome
    ∧ (interactionFormat (logInteraction ⟨"s1"⟩ 0 "2025-01-14T12:00:00"
        "2025-01-14 12:00:00" "user_query" (some "ping") Option.none Option.none
        Option.none Option.none Option.none).2).isSome
    ∧ structuredFormat
      { name := "deer_flow.agents", levelname := "INFO", msg := "m",
        module := "", funcName := "", lineno := 3,
        createdIso := "2025-01-14T12:00:00", createdHMS := "2025-01-14 12:00:00",
        excText := Option.none, attrs := [("metadata", PyVal.blob "lock")] }
      = Option.none := by
  refine ⟨encoder_totality_amended.1 _ (by decide), ?_, encoder_totality_amended.2.2 _ "lock" rfl⟩
  refine encoder_totality_amended.2.1
    (logInteraction ⟨"s1"⟩ 0 "2025-01-14T12:00:00" "2025-01-14 12:00:00" "user_query"
      (some "ping") Option.none Option.none Option.none Option.none Option.none).2
    (by decide) ?_
  intro v hv
  injection hv with h
  exact ⟨_, h.symm⟩

/-- C9 counterexample: the record built by `log_interaction` for a
simple user query is encoded by the interaction encoder
(`json.dumps(..., indent=2)`) into a string containing newlines — the
encoded record does not occupy a single line of the log file. -/
theorem single_line_counterexample :
    (interactionFormat (logInteraction ⟨"s1"⟩ 0 "2025-01-14T12:00:00"
        "2025-01-14 12:00:00" "user_query" (some "ping") Option.none Option.none
        Option.none Option.none Option.none).2).isSome
    ∧ '\n' ∈ ((interactionFormat (logInteraction ⟨"s1"⟩ 0 "2025-01-14T12:00:00"
        "2025-01-14 12:00:00" "user_query" (some "ping") Option.none Option.none
        Option.none Option.none Option.none).2).getD "").data := by
  constructor <;> decide

/-- C9 (amended): every record the generic structured encoder emits
occupies a single line (its JSON output contains no newline), but every
record the interaction encoder emits spans multiple lines (its indented
JSON output always contains a newline), so only the non-interaction
channel files can be parsed line by line. -/
theorem single_line_amended :
    (∀ (r : LogRecord) (s : String), structuredFormat r = some s → '\n' ∉ s.data)
    ∧ (∀ (r : LogRecord) (s : String), interactionFormat r = some s → '\n' ∈ s.data) :=
  ⟨structuredFormat_single_line, interactionFormat_multi_line⟩

set_option maxRecDepth 8000 in
/-- C9 witness: the amended theorem applied to concrete records — a
structured encoding of an agent record has no newline, the interaction
encoding of a user-query record has one. -/
theorem single_line_amended_witness :
    '\n' ∉ (((structuredFormat
      { name := "deer_flow.agents", levelname := "INFO", msg := "m",
        module := "", funcName := "", lineno := 3,
        createdIso := "2025-01-14T12:00:00", createdHMS := "2025-01-14 12:00:00",
        excText := Option.none,
        attrs := [("session_id", PyVal.str "s1")] }).getD "").data)
    ∧ '\n' ∈ (((interactionFormat (logInteraction ⟨"s1"⟩ 0 "2025-01-14T12:00:00"
        "2025-01-14 12:00:00" "user_query" (some "ping") Option.none Option.none
        Option.none Option.none Option.none).2).getD "").data) := by
  constructor
  · have hr : structuredFormat
        { name := "deer_flow.agents", levelname := "INFO", msg := "m",
          module := "", funcName := "", lineno := 3,
          createdIso := "2025-01-14T12:00:00", createdHMS := "2025-01-14 12:00:00",
          excText := Option.none,
          attrs := [("session_id", PyVal.str "s1")] }
        = some ((structuredFormat
        { name := "deer_flow.agents", levelname := "INFO", msg := "m",
          module := "", funcName := "", lineno := 3,
          createdIso := "2025-01-14T12:00:00", createdHMS := "2025-01-14 12:00:00",
          excText := Option.none,
          attrs := [("session_id", PyVal.str "s1")] }).getD "") := by decide
    exact single_line_amended.1 _ _ hr
  · have hr : interactionFormat (logInteraction ⟨"s1"⟩ 0 "2025-01-14T12:00:00"
        "2025-01-14 12:00:00" "user_query" (some "ping") Option.none Option.none
        Option.none Option.none Option.none).2
        = some ((interactionFormat (logInteraction ⟨"s1"⟩ 0 "2025-01-14T12:00:00"
        "2025-01-14 12:00:00" "user_query" (some "ping") Option.none Option.none
        Option.none Option.none Option.none).2).getD "") := by decide
    exact single_line_amended.2 _ _ hr
/-- C10 counterexample: with a global logger bound to `"s1"`, calling
`get_interaction_logger` with the non-null session id `""` (different
from `"s1"`) returns the existing instance still bound to `"s1"` —
no fresh logger is created, because `""` is falsy in Python. -/
theorem global_logger_rebind_counterexample :
    getInteractionLogger (some ⟨"s1"⟩) 7 (some "") = (⟨"s1"⟩, false)
    ∧ (some "" : Option String) ≠ Option.none
    ∧ ("" : String) ≠ "s1" := by
  refine ⟨by decide, by decide, by decide⟩

/-- C10 (amended): when a global logger exists, `get_interaction_logger`
returns that same instance (unchanged binding) for `session_id = None`,
for the empty string, and for the logger's own session id; only a
non-empty session id different from the bound one discards the instance
and produces a fresh logger bound to the new id.  With no global logger
a fresh one is created. -/
theorem global_logger_rebind_amended (lg : InteractionLogger) (n : Nat)
    (sid : Option String) :
    getInteractionLogger (some lg) n Option.none = (lg, false)
    ∧ getInteractionLogger (some lg) n (some "") = (lg, false)
    ∧ getInteractionLogger (some lg) n (some lg.sessionId) = (lg, false)
    ∧ (∀ s : String, s ≠ "" → s ≠ lg.sessionId →
        getInteractionLogger (some lg) n (some s) = (⟨s⟩, true))
    ∧ getInteractionLogger Option.none n sid = (newInteractionLogger n sid, true) := by
  refine ⟨rfl, ?_, ?_, ?_, rfl⟩
  · simp [getInteractionLogger, pyTruthyOptStr]
  · simp [getInteractionLogger, pyTruthyOptStr]
  · intro s hs hne
    simp [getInteractionLogger, pyTruthyOptStr, hs, hne, newInteractionLogger,
      Ne.symm hne]

/-- C10 witness: the amended theorem at a logger bound to `"s1"`,
probed with `None`, `""`, `"s1"` and the distinct non-empty id `"s2"`. -/
theorem global_logger_rebind_amended_witness :
    getInteractionLogger (some ⟨"s1"⟩) 3 Option.none = (⟨"s1"⟩, false)
    ∧ getInteractionLogger (some ⟨"s1"⟩) 3 (some "s1") = (⟨"s1"⟩, false)
    ∧ (("s2" : String) ≠ "" ∧ ("s2" : String) ≠ "s1"
      ∧ getInteractionLogger (some ⟨"s1"⟩) 3 (some "s2") = (⟨"s2"⟩, true)) := by
  have h := global_logger_rebind_amended ⟨"s1"⟩ 3 Option.none
  exact ⟨h.1, h.2.2.1, by decide, by decide,
    h.2.2.2.1 "s2" (by decide) (by decide)⟩
